import Mathlib

/-!
# GnoLend backend: market activity reconstruction

A shallow embedding of `backend/service/market_activity_service.go`
(`parseMarketActivity` and `GetMarketActivity`) together with theorems about
the extraction of typed fields from untyped indexer records, and of the two
handlers of `backend/routes` (`APRHistoryHandler`,
`TotalUtilizationHistoryHandler`).

Modelling conventions.

* A Go value of type `interface{}` produced by `encoding/json` is a `Value`;
  a Go `map[string]interface{}` is an association list and indexing it with an
  absent key gives the nil interface (`Value.null`).
* A `float64` is a `Float64`: a finite value (a rational), an infinity or NaN.
  Negative zero is identified with zero: the code only ever compares a parsed
  number against zero and never stores a zero.
* A failed type assertion, or an index out of range, panics.  The body of
  `parseMarketActivity` is written in the `Option` monad, `none` standing for a
  panic; the deferred `recover` turns a panic into the zero value of the
  (unnamed) result.
* `strconv.ParseFloat`, the out-of-range case of the `int64` conversion and the
  collaborators of `GetMarketActivity` are parameters. The decoding of
  `encoding/json` into the envelope struct is written out on the parsed
  document; the JSON grammar and the matching of member names are parameters.
* A handler is a function from the parsed query to the response it writes and
  the calls of the service function it makes; the service function and the JSON
  encoder of its result are parameters.
-/

namespace GnoLend

/-! ## Values -/

/-- A Go `float64`. -/
inductive Float64 where
  | fin (q : ℚ)
  | posInf
  | negInf
  | nan
  deriving DecidableEq

/-- The literal `0.0`. -/
def Float64.zero : Float64 := .fin 0

/-- The Go comparison `x != 0` on `float64` (true for NaN and the infinities). -/
def Float64.neZero : Float64 → Bool
  | .fin q => decide (q ≠ 0)
  | _ => true

/-- Truncation of a rational toward zero. -/
def truncQ (q : ℚ) : Int := Int.tdiv q.num q.den

/-- Whether the truncation of `x` is representable as an `int64`. -/
def Float64.fitsInt64 : Float64 → Bool
  | .fin q => decide (-(2 ^ 63 : Int) ≤ truncQ q ∧ truncQ q < 2 ^ 63)
  | _ => false

/-- A dynamically typed value as `encoding/json` stores it in an `interface{}`. -/
inductive Value where
  | null
  | bool (b : Bool)
  | number (x : Float64)
  | string (s : String)
  | array (xs : List Value)
  | object (m : List (String × Value))

/-- A Go `map[string]interface{}`. -/
abbrev Record := List (String × Value)

/-- The map index expression `m[k]`: the nil interface when the key is absent. -/
def lookup (m : Record) (k : String) : Value :=
  (List.lookup k m).getD Value.null

/-- The type assertion `v.(float64)`. -/
def Value.asFloat64 : Value → Option Float64
  | .number x => some x
  | _ => none

/-- The type assertion `v.(string)`. -/
def Value.asString : Value → Option String
  | .string s => some s
  | _ => none

/-- The type assertion `v.([]interface{})`. -/
def Value.asSlice : Value → Option (List Value)
  | .array xs => some xs
  | _ => none

/-- The type assertion `v.(map[string]interface{})`. -/
def Value.asMap : Value → Option Record
  | .object m => some m
  | _ => none

/-! ## Environment -/

/-- The parts of the Go runtime and standard library the extractor relies on. -/
structure Runtime where
  /-- The call `strconv.ParseFloat(s, 64)`: `none` when the error is not nil. -/
  ParseFloat : String → Option Float64
  /-- The conversion `int64(x)` where the truncation of `x` is not representable
  (Go leaves the result implementation-dependent). -/
  int64Overflow : Float64 → Int

/-- The conversion `int64(x)` of a `float64`. -/
def Runtime.toInt64 (rt : Runtime) (x : Float64) : Int :=
  match x with
  | .fin q => if x.fitsInt64 then truncQ q else rt.int64Overflow x
  | _ => rt.int64Overflow x

/-! ## The extractor -/

/-- The anonymous result struct of `parseMarketActivity`. -/
structure RawTx where
  Typ : String
  Amount : Float64
  Caller : String
  Hash : String
  BlockHeight : Int
  IsAmountInShares : Bool
  deriving DecidableEq

/-- The zero value of the result struct. -/
def RawTx.zero : RawTx :=
  { Typ := "", Amount := Float64.zero, Caller := "", Hash := "", BlockHeight := 0,
    IsAmountInShares := false }

/-- The running variables `txType`, `amount`, `isAmountInShares` of the event loop. -/
structure LoopState where
  txType : String
  amount : Float64
  isAmountInShares : Bool
  deriving DecidableEq

/-- The test `key == "amount" || key == "assets" || key == "shares"`. -/
def isAmountKey (key : String) : Bool :=
  key == "amount" || key == "assets" || key == "shares"

/-- One iteration of the inner loop over `attrs`. -/
def attrStep (rt : Runtime) (st : LoopState) (attr : Value) : Option LoopState := do
  let attrMap ← attr.asMap
  let key ← (lookup attrMap "key").asString
  if isAmountKey key then
    let value ← (lookup attrMap "value").asString
    match rt.ParseFloat value with
    | some val =>
      if val.neZero then
        let st1 := { st with amount := val }
        if key == "shares" then
          pure { st1 with isAmountInShares := true }
        else
          pure st1
      else
        pure st
    | none => pure st
  else
    pure st

/-- One iteration of the outer loop over `eventsArr`. -/
def eventStep (rt : Runtime) (st : LoopState) (ev : Value) : Option LoopState := do
  let evMap ← ev.asMap
  let txType ← (lookup evMap "type").asString
  let attrs ← (lookup evMap "attrs").asSlice
  List.foldlM (attrStep rt) { st with txType := txType } attrs

/-- The body of `parseMarketActivity`; `none` is a panic. -/
def parseBody (rt : Runtime) (tx : Record) : Option RawTx := do
  let blockHeight ← (lookup tx "block_height").asFloat64.map rt.toInt64
  let hash ← (lookup tx "hash").asString
  let messages ← (lookup tx "messages").asSlice
  let msg0 ← messages.head?
  let msgMap ← msg0.asMap
  let valueMap ← (lookup msgMap "value").asMap
  let caller ← (lookup valueMap "caller").asString
  let response ← (lookup tx "response").asMap
  let eventsArr ← (lookup response "events").asSlice
  let st ← List.foldlM (eventStep rt)
    { txType := "", amount := Float64.zero, isAmountInShares := false } eventsArr
  pure { Typ := st.txType, Amount := st.amount, Caller := caller, Hash := hash,
         BlockHeight := blockHeight, IsAmountInShares := st.isAmountInShares }

/-- The function `parseMarketActivity`: the deferred `recover` swallows a panic and
the function then returns the zero value of its result. -/
def parseMarketActivity (rt : Runtime) (tx : Record) : RawTx :=
  (parseBody rt tx).getD RawTx.zero

/-! ## The reconstructor -/

/-- The struct `MarketActivity`. -/
structure MarketActivity where
  Typ : String
  Amount : Float64
  Caller : String
  Hash : String
  Timestamp : String
  IsAmountInShares : Bool
  deriving DecidableEq

/-- A Go `[]byte`. -/
abbrev Bytes := List UInt8

/-- A Go `map[int64]string`. -/
abbrev TimeMap := List (Int × String)

/-- The map index expression `heightToTime[h]`: the empty string when the key is absent. -/
def TimeMap.get (m : TimeMap) (h : Int) : String :=
  (List.lookup h m).getD ""

/-- The collaborators of `GetMarketActivity`, with errors of type `ε`. -/
structure Collaborators (ε : Type) where
  /-- The call `qb.Execute()` of the query `getMarketActivity` filtered by the market id. -/
  Execute : String → Except ε Bytes
  /-- What `json.Unmarshal(resp, &data)` leaves in `data.Data.GetTransactions`
  (the error it returns is ignored by the caller). -/
  Unmarshal : Bytes → List Record
  /-- The call `FetchBlockTimestamps(heights)`. -/
  FetchBlockTimestamps : List Int → Except ε TimeMap

/-- A call made to a collaborator. -/
inductive Call where
  | Execute (marketId : String)
  | FetchBlockTimestamps (heights : List Int)
  deriving DecidableEq

/-- What a run of `GetMarketActivity` does: the collaborator calls it made, in order,
and what it returned (`.error err` is the Go pair `nil, err`; `.ok l` is `l, nil`). -/
structure Outcome (ε : Type) where
  calls : List Call
  ret : Except ε (List MarketActivity)

/-- The join of one extracted record with the resolved timestamps. -/
def joinTimestamp (heightToTime : TimeMap) (tx : RawTx) : MarketActivity :=
  { Typ := tx.Typ, Amount := tx.Amount, Caller := tx.Caller, Hash := tx.Hash,
    Timestamp := heightToTime.get tx.BlockHeight, IsAmountInShares := tx.IsAmountInShares }

/-- The function `GetMarketActivity`. Each `for ... range` loop appends to its slice. -/
def GetMarketActivity {ε : Type} (rt : Runtime) (env : Collaborators ε) (marketId : String) :
    Outcome ε :=
  match env.Execute marketId with
  | .error err => { calls := [Call.Execute marketId], ret := .error err }
  | .ok resp =>
    let txs := env.Unmarshal resp
    let raw := txs.foldl (fun raw tx => raw ++ [parseMarketActivity rt tx]) []
    let heights := raw.foldl (fun heights tx => heights ++ [tx.BlockHeight]) []
    match env.FetchBlockTimestamps heights with
    | .error err =>
      { calls := [Call.Execute marketId, Call.FetchBlockTimestamps heights], ret := .error err }
    | .ok heightToTime =>
      let result := raw.foldl (fun result tx => result ++ [joinTimestamp heightToTime tx]) []
      { calls := [Call.Execute marketId, Call.FetchBlockTimestamps heights], ret := .ok result }

/-! ## Shapes of records

The predicates below follow the wording of the specification: they describe, on the
untyped record itself, which accesses of the extractor fail. -/

/-- An attribute the extractor cannot read: not an object, without a string `key`, or
keyed `amount`/`assets`/`shares` with a `value` that is not a string. -/
def badAttr (attr : Value) : Bool :=
  match attr with
  | .object attrMap =>
    match lookup attrMap "key" with
    | .string key =>
      match lookup attrMap "value" with
      | .string _ => false
      | _ => isAmountKey key
    | _ => true
  | _ => true

/-- An event the extractor cannot read: not an object, without a string `type`, without a
list `attrs`, or with an unreadable attribute. -/
def badEvent (ev : Value) : Bool :=
  match ev with
  | .object evMap =>
    match lookup evMap "type", lookup evMap "attrs" with
    | .string _, .array attrs => attrs.any badAttr
    | _, _ => true
  | _ => true

/-- The `messages` key is missing, not a list, an empty list, or its first element lacks
the `value.caller` string path. -/
def badMessages (tx : Record) : Bool :=
  match lookup tx "messages" with
  | .array (.object msgMap :: _) =>
    match lookup msgMap "value" with
    | .object valueMap =>
      match lookup valueMap "caller" with
      | .string _ => false
      | _ => true
    | _ => true
  | _ => true

/-- The `response` or its `events` is absent or of the wrong type, or an event is unreadable. -/
def badResponse (tx : Record) : Bool :=
  match lookup tx "response" with
  | .object response =>
    match lookup response "events" with
    | .array eventsArr => eventsArr.any badEvent
    | _ => true
  | _ => true

/-- Some field the extractor accesses is absent or of the wrong shape. -/
def Malformed (tx : Record) : Bool :=
  (match lookup tx "block_height" with
   | .number _ => false
   | _ => true) ||
  (match lookup tx "hash" with
   | .string _ => false
   | _ => true) ||
  badMessages tx || badResponse tx

/-- The attributes of an event, in order. -/
def eventAttrs (ev : Value) : List Value :=
  match ev with
  | .object evMap =>
    match lookup evMap "attrs" with
    | .array attrs => attrs
    | _ => []
  | _ => []

/-- An attribute that matches: its key is one of `amount`, `assets`, `shares` and its string
value parses to a non-zero number. The result is the key and the parsed value. -/
def attrMatch (rt : Runtime) (attr : Value) : Option (String × Float64) :=
  match attr with
  | .object attrMap =>
    match lookup attrMap "key", lookup attrMap "value" with
    | .string key, .string value =>
      if isAmountKey key then
        match rt.ParseFloat value with
        | some val => if val.neZero then some (key, val) else none
        | none => none
      else none
    | _, _ => none
  | _ => none

/-- The matching attributes of an event list, in encounter order across all events and
all attributes. -/
def matchesOf (rt : Runtime) (eventsArr : List Value) : List (String × Float64) :=
  (eventsArr.flatMap eventAttrs).filterMap (attrMatch rt)

/-- The `type` string of an event. -/
def eventType (ev : Value) : String :=
  match ev with
  | .object evMap =>
    match lookup evMap "type" with
    | .string t => t
    | _ => ""
  | _ => ""

/-- The type string left by the event loop started with `t0`: that of the last event. -/
def lastType (t0 : String) (eventsArr : List Value) : String :=
  (eventsArr.getLast?.map eventType).getD t0

/-- The effect of one matching attribute on the running variables. -/
def applyMatch (st : LoopState) (m : String × Float64) : LoopState :=
  { st with amount := m.2, isAmountInShares := st.isAmountInShares || m.1 == "shares" }

/-- The block heights of the extracted records, in record order. -/
def heightsOf (rt : Runtime) (txs : List Record) : List Int :=
  txs.map (fun tx => (parseMarketActivity rt tx).BlockHeight)

/-! ## A concrete runtime for examples -/

/-- The value of a string of ASCII decimal digits. -/
def digitsValue (cs : List Char) : Option Nat :=
  cs.foldlM (fun acc c => if c.isDigit then some (10 * acc + (c.toNat - 48)) else none) 0

/-- A fragment of `strconv.ParseFloat`: a non-empty string of decimal digits parses to the
integer it denotes (exact for the short strings of the examples); every other string is
rejected here. -/
def parseDigits (s : String) : Option Float64 :=
  if s.data = [] then none else (digitsValue s.data).map (fun n => Float64.fin n)

/-- A runtime for concrete examples: `parseDigits`, and the `amd64` result of an
out-of-range conversion. -/
def sampleRuntime : Runtime :=
  { ParseFloat := parseDigits, int64Overflow := fun _ => -(2 ^ 63) }

/-- An attribute object with a string value. -/
def mkAttr (key value : String) : Value :=
  .object [("key", .string key), ("value", .string value)]

/-- An event object. -/
def mkEvent (type : String) (attrs : List Value) : Value :=
  .object [("type", .string type), ("attrs", .array attrs)]

/-- A record of the indexer with one message. -/
def mkTx (height : ℚ) (hash caller : String) (events : List Value) : Record :=
  [("block_height", .number (.fin height)), ("hash", .string hash),
   ("messages", .array [.object [("value", .object [("caller", .string caller)])]]),
   ("response", .object [("events", .array events)])]

/-! ## Sample records and collaborators -/

/-- A `shares` attribute with value `"10"` followed by an `amount` attribute with value `"3"`. -/
def txSharesThenAmount : Record :=
  mkTx 100 "0xa1" "g1user" [mkEvent "Supply" [mkAttr "shares" "10", mkAttr "amount" "3"]]

/-- Two events whose `amount` attributes have values `"5"` and `"0"`. -/
def txFiveThenZero : Record :=
  mkTx 100 "0xa2" "g1user"
    [mkEvent "Supply" [mkAttr "amount" "5"], mkEvent "Fee" [mkAttr "amount" "0"]]

/-- Valid height, hash, caller and first event; the second event has a `shares` attribute
whose value is a number, not a string. -/
def txBadLateAttr : Record :=
  mkTx 100 "0xa3" "g1user"
    [mkEvent "Supply" [mkAttr "amount" "5"],
     mkEvent "Fee" [.object [("key", .string "shares"), ("value", .number (.fin 7))]]]

/-- Valid height, hash and events, and an empty `messages` list. -/
def txNoMessages : Record :=
  [("block_height", .number (.fin 100)), ("hash", .string "0xa4"),
   ("messages", .array []),
   ("response", .object [("events", .array [mkEvent "Supply" [mkAttr "amount" "5"]])])]

/-- The rational `7/2`. -/
def sevenHalves : ℚ := ⟨7, 2, by decide, by decide⟩

/-- A record with a fractional height and two messages. -/
def txTwoMessages : Record :=
  [("block_height", .number (.fin sevenHalves)), ("hash", .string "0xa5"),
   ("messages", .array [.object [("value", .object [("caller", .string "g1first")])],
                        .object [("value", .object [("caller", .string "g1second")])]]),
   ("response", .object [("events", .array [])])]

/-- Two events of different types, the amount coming from the first. -/
def txTwoEvents : Record :=
  mkTx 100 "0xa6" "g1user" [mkEvent "Borrow" [mkAttr "assets" "8"], mkEvent "Fee" []]

/-- Collaborators that answer with the given transactions and timestamps. -/
def staticEnv (txs : List Record) (times : TimeMap) : Collaborators String :=
  { Execute := fun _ => .ok [],
    Unmarshal := fun _ => txs,
    FetchBlockTimestamps := fun _ => .ok times }

/-- Two transactions at heights 100 and 200. -/
def twoHeights : List Record :=
  [mkTx 100 "0xb1" "g1user" [mkEvent "Supply" [mkAttr "amount" "5"]],
   mkTx 200 "0xb2" "g1user" [mkEvent "Withdraw" [mkAttr "shares" "4"]]]

/-- Collaborators whose timestamp resolver fails. -/
def resolverDownEnv (txs : List Record) : Collaborators String :=
  { Execute := fun _ => .ok [],
    Unmarshal := fun _ => txs,
    FetchBlockTimestamps := fun _ => .error "resolver down" }

/-- Collaborators whose indexer query fails. -/
def indexerDownEnv : Collaborators String :=
  { Execute := fun _ => .error "indexer down",
    Unmarshal := fun _ => [],
    FetchBlockTimestamps := fun _ => .ok [] }

/-! ## The response envelope

`GetMarketActivity` decodes the response with `json.Unmarshal(resp, &data)` and ignores the
error, `data` being a struct with the field `Data` (JSON name `data`), itself a struct with the
field `GetTransactions` (JSON name `getTransactions`) of type `[]map[string]interface{}`.
The decoding of `encoding/json` into that struct is written out on the parsed document. -/

/-- The parts of `encoding/json` that are taken as given. -/
structure JSONLib where
  /-- The JSON document of a text, `none` when the text is not valid JSON. The members of the
  document and of the value of `data`, which are decoded into structs, are in document order;
  an object below them stands for the Go map the decoder builds from it (of two members with
  the same name the last one counts). -/
  parse : Bytes → Option Value
  /-- Whether a member name selects the struct field with the given JSON name: an exact or
  case-insensitive match. The field name comes first. -/
  keyMatches : String → String → Bool
  /-- What the decoding leaves in `GetTransactions`, and whether it reports an error, for a
  document in which a field name is matched by more than one member (each of them is then
  decoded into the same field, in turn). -/
  repeated : Value → List Record × Bool

/-- The members of an object that select a field. -/
inductive Member where
  | absent
  | one (v : Value)
  | repeated

/-- The member of an object that selects the field with the JSON name `name`. -/
def JSONLib.member (lib : JSONLib) (name : String) (members : List (String × Value)) : Member :=
  match members.filter (fun p => lib.keyMatches name p.1) with
  | [] => .absent
  | [p] => .one p.2
  | _ => .repeated

/-- The map an element of the array leaves in the slice: the object itself, and the nil map
for a null and for a value of any other type (which is skipped). -/
def elementMap : Value → Record
  | .object m => m
  | _ => []

/-- An array element of a wrong type for `map[string]interface{}`: neither an object nor null. -/
def elementMistyped : Value → Bool
  | .object _ => false
  | .null => false
  | _ => true

/-- The call `json.Unmarshal(resp, &data)`: the slice `data.Data.GetTransactions` after it, and
whether it returns an error. Invalid JSON stores nothing. In a valid document a null leaves its
target as it is (nil for the slice), a value of a wrong type for its target is skipped and
reported, a member that selects no field is skipped, and the decoding goes on. -/
def JSONLib.unmarshal (lib : JSONLib) (resp : Bytes) : List Record × Bool :=
  match lib.parse resp with
  | none => ([], true)
  | some (.object members) =>
    match lib.member "data" members with
    | .absent => ([], false)
    | .repeated => lib.repeated (.object members)
    | .one (.object dataMembers) =>
      match lib.member "getTransactions" dataMembers with
      | .absent => ([], false)
      | .repeated => lib.repeated (.object members)
      | .one (.array elems) => (elems.map elementMap, elems.any elementMistyped)
      | .one .null => ([], false)
      | .one _ => ([], true)
    | .one .null => ([], false)
    | .one _ => ([], true)
  | some .null => ([], false)
  | some _ => ([], true)

/-- A run of `GetMarketActivity` on zero transactions: the resolver is called with no height,
and an answer of the resolver gives an empty list with no error. -/
def ZeroTransactionsRun {ε : Type} (rt : Runtime) (env : Collaborators ε) (marketId : String) :
    Prop :=
  (GetMarketActivity rt env marketId).calls
      = [Call.Execute marketId, Call.FetchBlockTimestamps []] ∧
    ∀ heightToTime : TimeMap, env.FetchBlockTimestamps [] = .ok heightToTime →
      (GetMarketActivity rt env marketId).ret = .ok []

/-! ## The HTTP handlers -/

/-- The parsed query of a request, a Go `url.Values`. -/
abbrev Values := List (String × List String)

/-- The method `Values.Get`: the first value of the key, the empty string when it has none. -/
def Values.Get (v : Values) (key : String) : String :=
  match List.lookup key v with
  | some (x :: _) => x
  | _ => ""

/-- An `http.ResponseWriter` as the handlers use it: the header map, the status code once the
header is written, and the body written so far. -/
structure ResponseWriter where
  header : List (String × String)
  status : Option Nat
  body : String
  deriving DecidableEq

/-- A fresh response. -/
def ResponseWriter.fresh : ResponseWriter :=
  { header := [], status := none, body := "" }

/-- The call `w.Header().Set(key, value)`. -/
def ResponseWriter.setHeader (w : ResponseWriter) (key value : String) : ResponseWriter :=
  { w with header := (key, value) :: w.header.filter (fun p => p.1 != key) }

/-- The call `w.Header().Del(key)`. -/
def ResponseWriter.delHeader (w : ResponseWriter) (key : String) : ResponseWriter :=
  { w with header := w.header.filter (fun p => p.1 != key) }

/-- The call `w.WriteHeader(code)`: only the first one counts. -/
def ResponseWriter.WriteHeader (w : ResponseWriter) (code : Nat) : ResponseWriter :=
  match w.status with
  | none => { w with status := some code }
  | some _ => w

/-- The call `w.Write(data)`: it writes the header with status 200 when none was written. -/
def ResponseWriter.Write (w : ResponseWriter) (data : String) : ResponseWriter :=
  { w.WriteHeader 200 with body := (w.WriteHeader 200).body ++ data }

/-- The function `http.Error` of `net/http`: a plain-text reply, the message followed by a
newline. -/
def httpError (w : ResponseWriter) (msg : String) (code : Nat) : ResponseWriter :=
  ((((w.delHeader "Content-Length").setHeader "Content-Type" "text/plain; charset=utf-8").setHeader
    "X-Content-Type-Options" "nosniff").WriteHeader code).Write (msg ++ "\n")

/-- The call `json.NewEncoder(w).Encode(result)`: the encoding followed by a newline, and
nothing when the encoding fails. -/
def encodeTo {ρ : Type} (marshal : ρ → Option String) (w : ResponseWriter) (result : ρ) :
    ResponseWriter :=
  match marshal result with
  | some s => w.Write (s ++ "\n")
  | none => w

/-- What a run of a handler does: the response, and the market ids it passed to the service
function, in order. -/
structure HandlerRun where
  w : ResponseWriter
  calls : List String
  deriving DecidableEq

/-- The function `APRHistoryHandler`. `GetAPRHistory` gives `.error s` for an error whose
text `err.Error()` is `s`. -/
def APRHistoryHandler {ρ : Type} (GetAPRHistory : String → Except String ρ)
    (marshal : ρ → Option String) (query : Values) : HandlerRun :=
  let w := ResponseWriter.fresh.setHeader "Content-Type" "application/json"
  let marketId := Values.Get query "marketId"
  if marketId == "" then
    { w := httpError w "marketId is required" 400, calls := [] }
  else
    match GetAPRHistory marketId with
    | .error err => { w := httpError w err 500, calls := [marketId] }
    | .ok result => { w := encodeTo marshal w result, calls := [marketId] }

/-- The function `TotalUtilizationHistoryHandler`. -/
def TotalUtilizationHistoryHandler {ρ : Type} (GetUtilizationHistory : String → Except String ρ)
    (marshal : ρ → Option String) (query : Values) : HandlerRun :=
  let w := ResponseWriter.fresh
  let marketId := Values.Get query "marketId"
  if marketId == "" then
    { w := (w.WriteHeader 400).Write "\x7b\"error\": \"marketId is required\"\x7d", calls := [] }
  else
    match GetUtilizationHistory marketId with
    | .error err =>
      { w := (w.WriteHeader 500).Write ("\x7b\"error\": \"" ++ err ++ "\"\x7d"),
        calls := [marketId] }
    | .ok result =>
      { w := encodeTo marshal (w.setHeader "Content-Type" "application/json") result,
        calls := [marketId] }

/-! ## More sample data -/

/-- Collaborators whose response holds no transaction and whose resolver fails. -/
def noTransactionsResolverDown : Collaborators String := resolverDownEnv []

/-- The bytes of an ASCII text. -/
def textBytes (text : String) : Bytes :=
  text.data.map (fun c => c.toNat.toUInt8)

/-- The code of a character, with the ASCII capitals folded to small letters. -/
def asciiFold (c : Char) : Nat :=
  if 65 ≤ c.toNat ∧ c.toNat ≤ 90 then c.toNat + 32 else c.toNat

/-- Equality of two names up to the case of ASCII letters. -/
def asciiFoldEq (a b : String) : Bool :=
  a.data.map asciiFold == b.data.map asciiFold

/-- A response whose `getTransactions` is a list of one valid record and the number 5. -/
def mixedText : Bytes :=
  textBytes ("\x7b\"data\":\x7b\"getTransactions\":[\x7b\"block_height\":100,\"hash\":\"0xa2\"," ++
    "\"messages\":[\x7b\"value\":\x7b\"caller\":\"g1user\"\x7d\x7d]," ++
    "\"response\":\x7b\"events\":[" ++
    "\x7b\"type\":\"Supply\",\"attrs\":[\x7b\"key\":\"amount\",\"value\":\"5\"\x7d]\x7d," ++
    "\x7b\"type\":\"Fee\",\"attrs\":[\x7b\"key\":\"amount\",\"value\":\"0\"\x7d]\x7d]\x7d\x7d,5]\x7d\x7d")

/-- The document of `mixedText`. -/
def mixedDoc : Value :=
  .object [("data", .object [("getTransactions",
    .array [.object txFiveThenZero, .number (.fin 5)])])]

/-- A response whose member names are in capitals and whose `getTransactions` is a string. -/
def notListText : Bytes :=
  textBytes "\x7b\"DATA\":\x7b\"GETTRANSACTIONS\":\"none\"\x7d\x7d"

/-- The document of `notListText`. -/
def notListDoc : Value :=
  .object [("DATA", .object [("GETTRANSACTIONS", .string "none")])]

/-- A response whose member names are capitalised and whose list holds one object. -/
def capitalisedText : Bytes :=
  textBytes "\x7b\"Data\":\x7b\"GetTransactions\":[\x7b\"hash\":\"0xd1\"\x7d]\x7d\x7d"

/-- The document of `capitalisedText`. -/
def capitalisedDoc : Value :=
  .object [("Data", .object [("GetTransactions", .array [.object [("hash", .string "0xd1")]])])]

/-- A JSON library for the examples: it knows the documents of the three texts above and
takes every other text for invalid JSON; names are matched up to the case of ASCII letters. -/
def sampleLib : JSONLib :=
  { parse := fun resp =>
      if resp = mixedText then some mixedDoc
      else if resp = notListText then some notListDoc
      else if resp = capitalisedText then some capitalisedDoc
      else none,
    keyMatches := asciiFoldEq,
    repeated := fun _ => ([], true) }

/-- Collaborators whose indexer answers with the given body, decoded by the given library,
and whose resolver answers with the given timestamps. -/
def libEnv (lib : JSONLib) (resp : Bytes) (times : TimeMap) : Collaborators String :=
  { Execute := fun _ => .ok resp,
    Unmarshal := fun body => (lib.unmarshal body).1,
    FetchBlockTimestamps := fun _ => .ok times }

/-- Collaborators whose response body is `mixedText`. -/
def mixedEnv : Collaborators String :=
  libEnv sampleLib mixedText [(100, "t1")]

/-- The number `10^19`, above the range of `int64`. -/
def tenToNineteen : ℚ := ⟨10000000000000000000, 1, by decide, by decide⟩

/-- A well-formed record whose block height is `1e19`. -/
def txHugeHeight : Record :=
  mkTx tenToNineteen "0xe1" "g1user" [mkEvent "Supply" [mkAttr "amount" "5"]]

/-- Collaborators whose resolver answers only the expected height list and fails on every
other argument. -/
def pickyEnv (txs : List Record) (expected : List Int) (times : TimeMap) :
    Collaborators String :=
  { Execute := fun _ => .ok [],
    Unmarshal := fun _ => txs,
    FetchBlockTimestamps := fun heights =>
      if heights = expected then .ok times else .error "unexpected heights" }

/-- A history service that knows one market only and fails for every other id. -/
def onlyService (known : String) (answer : Nat) : String → Except String Nat :=
  fun marketId => if marketId = known then .ok answer else .error "unknown market"

/-- A history service that always fails with the given text. -/
def failingService (text : String) : String → Except String Nat :=
  fun _ => .error text

/-- A history service that answers with the length of the market id. -/
def lengthService : String → Except String Nat :=
  fun marketId => .ok marketId.length

/-- An encoder of numbers, for examples. -/
def sampleMarshal : Nat → Option String :=
  fun n => some (toString n)

/-- An attribute keyed `memo` whose value is a number, not a string. -/
def memoAttr : Value :=
  .object [("key", .string "memo"), ("value", .number (.fin 1))]

/-- The same mistyped value under the key `amount`. -/
def amountNumberAttr : Value :=
  .object [("key", .string "amount"), ("value", .number (.fin 1))]

/-- A record whose only event carries the given attributes. -/
def txWithAttrs (attrs : List Value) : Record :=
  mkTx 100 "0xc1" "g1user" [mkEvent "Supply" attrs]

/-! ## Lemmas on the loops -/

theorem attrStep_of_bad (rt : Runtime) (st : LoopState) (attr : Value)
    (h : badAttr attr = true) : attrStep rt st attr = none := by
  unfold badAttr at h
  unfold attrStep
  cases attr <;> simp [Value.asMap] at h ⊢
  rename_i m
  cases hk : lookup m "key" <;> simp [hk, Value.asString] at h ⊢
  cases hv : lookup m "value" <;> simp [hv, Value.asString] at h ⊢ <;> simp [h]

theorem attrStep_of_good (rt : Runtime) (st : LoopState) (attr : Value)
    (h : badAttr attr = false) :
    attrStep rt st attr = some ((attrMatch rt attr).elim st (applyMatch st)) := by
  unfold badAttr at h
  unfold attrStep attrMatch
  cases attr <;> simp [Value.asMap] at h ⊢
  rename_i m
  cases hk : lookup m "key" <;> simp [hk, Value.asString] at h ⊢
  rename_i key
  by_cases hkey : isAmountKey key = true
  · cases hv : lookup m "value" <;> simp [hv, hkey, Value.asString] at h ⊢
    rename_i value
    cases hp : rt.ParseFloat value <;> simp [hp]
    rename_i val
    by_cases hz : val.neZero = true
    · by_cases hs : key = "shares" <;> simp [hz, hs, applyMatch]
    · simp [hz]
  · cases hv : lookup m "value" <;> simp [hv, hkey, Value.asString]

theorem foldlM_attrStep_of_bad (rt : Runtime) (attrs : List Value) :
    ∀ st : LoopState, attrs.any badAttr = true → List.foldlM (attrStep rt) st attrs = none := by
  induction attrs with
  | nil => intro st h; simp at h
  | cons a rest ih =>
    intro st h
    rw [List.foldlM_cons]
    cases ha : badAttr a
    · rw [attrStep_of_good rt st a ha]
      simp only [List.any_cons, ha, Bool.false_or] at h
      simpa using ih _ h
    · rw [attrStep_of_bad rt st a ha]; rfl

theorem foldlM_attrStep_of_good (rt : Runtime) (attrs : List Value) :
    ∀ st : LoopState, attrs.any badAttr = false →
      List.foldlM (attrStep rt) st attrs
        = some ((attrs.filterMap (attrMatch rt)).foldl applyMatch st) := by
  induction attrs with
  | nil => intro st _; rfl
  | cons a rest ih =>
    intro st h
    simp only [List.any_cons, Bool.or_eq_false_iff] at h
    rw [List.foldlM_cons, attrStep_of_good rt st a h.1]
    cases hm : attrMatch rt a with
    | none => simpa [List.filterMap_cons, hm] using ih st h.2
    | some m => simpa [List.filterMap_cons, hm] using ih (applyMatch st m) h.2

theorem eventStep_of_bad (rt : Runtime) (st : LoopState) (ev : Value)
    (h : badEvent ev = true) : eventStep rt st ev = none := by
  unfold badEvent at h
  unfold eventStep
  cases ev <;> simp [Value.asMap] at h ⊢
  rename_i m
  cases ht : lookup m "type" <;> simp [ht, Value.asString] at h ⊢
  cases ha : lookup m "attrs" <;> simp [ha, Value.asSlice] at h ⊢
  rename_i t attrs
  obtain ⟨a, ha1, ha2⟩ := h
  exact foldlM_attrStep_of_bad rt attrs _ (List.any_eq_true.mpr ⟨a, ha1, ha2⟩)

theorem eventStep_of_good (rt : Runtime) (st : LoopState) (ev : Value)
    (h : badEvent ev = false) :
    eventStep rt st ev
      = some (((eventAttrs ev).filterMap (attrMatch rt)).foldl applyMatch
          { st with txType := eventType ev }) := by
  unfold badEvent at h
  unfold eventStep eventAttrs eventType
  cases ev <;> simp [Value.asMap] at h ⊢
  rename_i m
  cases ht : lookup m "type" <;> simp [ht, Value.asString] at h ⊢
  cases ha : lookup m "attrs" <;> simp [ha, Value.asSlice] at h ⊢
  rename_i t attrs
  have hg : attrs.any badAttr = false := by
    cases hb : attrs.any badAttr
    · rfl
    · obtain ⟨a, ha1, ha2⟩ := List.any_eq_true.mp hb
      have := h a ha1
      simp [ha2] at this
  exact foldlM_attrStep_of_good rt attrs _ hg

theorem foldl_applyMatch_txType (ms : List (String × Float64)) :
    ∀ st : LoopState, (ms.foldl applyMatch st).txType = st.txType := by
  induction ms with
  | nil => intro st; rfl
  | cons m rest ih => intro st; rw [List.foldl_cons, ih]; rfl

theorem foldl_applyMatch_amount (ms : List (String × Float64)) :
    ∀ st : LoopState,
      (ms.foldl applyMatch st).amount = (ms.getLast?.map Prod.snd).getD st.amount := by
  induction ms with
  | nil => intro st; rfl
  | cons m rest ih =>
    intro st
    rw [List.foldl_cons, ih]
    cases rest with
    | nil => rfl
    | cons m2 rest2 =>
      rw [List.getLast?_cons_cons, List.getLast?_eq_getLast (m2 :: rest2) (by simp)]
      rfl

theorem foldl_applyMatch_shares (ms : List (String × Float64)) :
    ∀ st : LoopState,
      (ms.foldl applyMatch st).isAmountInShares
        = (st.isAmountInShares || ms.any (fun m => m.1 == "shares")) := by
  induction ms with
  | nil => intro st; simp
  | cons m rest ih =>
    intro st
    rw [List.foldl_cons, ih]
    simp [applyMatch, Bool.or_assoc]

theorem lastType_cons (t0 : String) (ev : Value) (rest : List Value) :
    lastType t0 (ev :: rest) = lastType (eventType ev) rest := by
  cases rest with
  | nil => rfl
  | cons e2 r2 =>
    unfold lastType
    rw [List.getLast?_cons_cons, List.getLast?_eq_getLast (e2 :: r2) (by simp)]
    rfl

theorem matchesOf_cons (rt : Runtime) (ev : Value) (rest : List Value) :
    matchesOf rt (ev :: rest) = (eventAttrs ev).filterMap (attrMatch rt) ++ matchesOf rt rest := by
  simp [matchesOf, List.flatMap_cons, List.filterMap_append]

theorem foldlM_eventStep_of_bad (rt : Runtime) (evs : List Value) :
    ∀ st : LoopState, evs.any badEvent = true → List.foldlM (eventStep rt) st evs = none := by
  induction evs with
  | nil => intro st h; simp at h
  | cons e rest ih =>
    intro st h
    rw [List.foldlM_cons]
    cases he : badEvent e
    · rw [eventStep_of_good rt st e he]
      simp only [List.any_cons, he, Bool.false_or] at h
      simpa using ih _ h
    · rw [eventStep_of_bad rt st e he]; rfl

theorem foldlM_eventStep_of_good (rt : Runtime) (evs : List Value) :
    ∀ st : LoopState, evs.any badEvent = false →
      List.foldlM (eventStep rt) st evs
        = some { txType := lastType st.txType evs,
                 amount := ((matchesOf rt evs).foldl applyMatch st).amount,
                 isAmountInShares := ((matchesOf rt evs).foldl applyMatch st).isAmountInShares } := by
  induction evs with
  | nil => intro st _; rfl
  | cons e rest ih =>
    intro st h
    simp only [List.any_cons, Bool.or_eq_false_iff] at h
    rw [List.foldlM_cons, eventStep_of_good rt st e h.1]
    simp only [Option.bind_eq_bind, Option.some_bind]
    rw [ih _ h.2, matchesOf_cons, List.foldl_append, lastType_cons]
    simp only [foldl_applyMatch_amount, foldl_applyMatch_shares, foldl_applyMatch_txType]

theorem parseBody_of_badMessages (rt : Runtime) (tx : Record) (h : badMessages tx = true) :
    parseBody rt tx = none := by
  unfold badMessages at h
  unfold parseBody
  cases hb : lookup tx "block_height" <;> simp [Value.asFloat64]
  cases hh : lookup tx "hash" <;> simp [Value.asString]
  cases hm : lookup tx "messages" <;> simp [hm, Value.asSlice] at h ⊢
  rename_i x s msgs
  cases msgs with
  | nil => simp
  | cons m0 rest =>
    cases m0 <;> simp [Value.asMap] at h ⊢
    rename_i mm
    cases hv : lookup mm "value" <;> simp [hv] at h ⊢
    rename_i vm
    cases hc : lookup vm "caller" <;> simp [hc] at h ⊢

theorem parseBody_of_badResponse (rt : Runtime) (tx : Record) (h : badResponse tx = true) :
    parseBody rt tx = none := by
  cases hbm : badMessages tx
  swap
  · exact parseBody_of_badMessages rt tx hbm
  unfold badMessages at hbm
  unfold badResponse at h
  unfold parseBody
  cases hb : lookup tx "block_height" <;> simp [Value.asFloat64]
  cases hh : lookup tx "hash" <;> simp [Value.asString]
  cases hm : lookup tx "messages" <;> simp [hm, Value.asSlice] at hbm ⊢
  rename_i x s msgs
  cases msgs with
  | nil => simp
  | cons m0 rest =>
    cases m0 <;> simp [Value.asMap] at hbm ⊢
    rename_i mm
    cases hv : lookup mm "value" <;> simp [hv] at hbm ⊢
    rename_i vm
    cases hc : lookup vm "caller" <;> simp [hc] at hbm ⊢
    cases hr : lookup tx "response" <;> simp [hr] at h ⊢
    rename_i r
    cases he : lookup r "events" <;> simp [he] at h ⊢
    rename_i evs
    obtain ⟨e, he1, he2⟩ := h
    rw [foldlM_eventStep_of_bad rt evs _ (List.any_eq_true.mpr ⟨e, he1, he2⟩)]
    simp

theorem parseBody_of_malformed (rt : Runtime) (tx : Record) (h : Malformed tx = true) :
    parseBody rt tx = none := by
  cases hbm : badMessages tx
  swap
  · exact parseBody_of_badMessages rt tx hbm
  cases hbr : badResponse tx
  swap
  · exact parseBody_of_badResponse rt tx hbr
  unfold Malformed at h
  unfold parseBody
  cases hb : lookup tx "block_height" <;> simp [hb, hbm, hbr, Value.asFloat64] at h ⊢
  cases hh : lookup tx "hash" <;> simp [hh, Value.asString] at h ⊢

/-- The result of the body on a record whose accessed fields all have the right shape. -/
theorem parseBody_of_shape (rt : Runtime) (tx : Record) (height : Float64)
    (hash caller : String) (msgMap valueMap response : Record) (rest evs : List Value)
    (hb : lookup tx "block_height" = .number height)
    (hh : lookup tx "hash" = .string hash)
    (hm : lookup tx "messages" = .array (.object msgMap :: rest))
    (hv : lookup msgMap "value" = .object valueMap)
    (hc : lookup valueMap "caller" = .string caller)
    (hr : lookup tx "response" = .object response)
    (he : lookup response "events" = .array evs)
    (hg : evs.any badEvent = false) :
    parseBody rt tx = some
      { Typ := lastType "" evs,
        Amount := ((matchesOf rt evs).getLast?.map Prod.snd).getD Float64.zero,
        Caller := caller, Hash := hash, BlockHeight := rt.toInt64 height,
        IsAmountInShares := (matchesOf rt evs).any (fun m => m.1 == "shares") } := by
  unfold parseBody
  simp [hb, hh, hm, hv, hc, hr, he, Value.asFloat64, Value.asString, Value.asSlice, Value.asMap,
    foldlM_eventStep_of_good rt evs _ hg, foldl_applyMatch_amount, foldl_applyMatch_shares]

/-- A record that is not malformed has every field the extractor reads. -/
theorem shape_of_not_malformed (tx : Record) (h : Malformed tx = false) :
    ∃ (height : Float64) (hash caller : String) (msgMap valueMap response : Record)
      (rest evs : List Value),
      lookup tx "block_height" = .number height ∧ lookup tx "hash" = .string hash ∧
      lookup tx "messages" = .array (.object msgMap :: rest) ∧
      lookup msgMap "value" = .object valueMap ∧ lookup valueMap "caller" = .string caller ∧
      lookup tx "response" = .object response ∧ lookup response "events" = .array evs ∧
      evs.any badEvent = false := by
  unfold Malformed at h
  simp only [Bool.or_eq_false_iff] at h
  obtain ⟨⟨⟨h1, h2⟩, h3⟩, h4⟩ := h
  unfold badMessages at h3
  unfold badResponse at h4
  cases hb : lookup tx "block_height" <;> simp [hb] at h1
  cases hh : lookup tx "hash" <;> simp [hh] at h2
  cases hm : lookup tx "messages" <;> simp [hm] at h3
  rename_i height hash msgs
  cases msgs with
  | nil => simp at h3
  | cons m0 rest =>
    cases m0 <;> simp at h3
    rename_i mm
    cases hv : lookup mm "value" <;> simp [hv] at h3
    rename_i vm
    cases hc : lookup vm "caller" <;> simp [hc] at h3
    rename_i caller
    cases hr : lookup tx "response" <;> simp [hr] at h4
    rename_i r
    cases he : lookup r "events" <;> simp [he] at h4
    rename_i evs
    refine ⟨height, hash, caller, mm, vm, r, rest, evs, rfl, rfl, rfl, hv, hc, rfl, he, ?_⟩
    cases hany : evs.any badEvent
    · rfl
    · obtain ⟨e, he1, he2⟩ := List.any_eq_true.mp hany
      have := h4 e he1
      simp [he2] at this

theorem foldl_append_singleton {α β : Type} (f : α → β) (l : List α) :
    ∀ init : List β, l.foldl (fun acc x => acc ++ [f x]) init = init ++ l.map f := by
  induction l with
  | nil => intro init; simp
  | cons x rest ih => intro init; simp [List.foldl_cons, ih]

theorem GetMarketActivity_of_execute_ok {ε : Type} (rt : Runtime) (env : Collaborators ε)
    (marketId : String) (resp : Bytes) (hx : env.Execute marketId = .ok resp) :
    GetMarketActivity rt env marketId =
      match env.FetchBlockTimestamps (heightsOf rt (env.Unmarshal resp)) with
      | .error err =>
        { calls := [Call.Execute marketId,
                    Call.FetchBlockTimestamps (heightsOf rt (env.Unmarshal resp))],
          ret := .error err }
      | .ok heightToTime =>
        { calls := [Call.Execute marketId,
                    Call.FetchBlockTimestamps (heightsOf rt (env.Unmarshal resp))],
          ret := .ok ((env.Unmarshal resp).map
                  (fun tx => joinTimestamp heightToTime (parseMarketActivity rt tx))) } := by
  unfold GetMarketActivity heightsOf
  simp only [hx, foldl_append_singleton, List.nil_append, List.map_map]
  rfl

/-! ## Truncation toward zero -/

theorem truncQ_of_nonneg (q : ℚ) (h : 0 ≤ q) : truncQ q = ⌊q⌋ := by
  unfold truncQ
  rw [Rat.floor_def, Int.tdiv_eq_ediv (Rat.num_nonneg.mpr h) (by positivity)]

theorem truncQ_of_neg (q : ℚ) (h : q < 0) : truncQ q = ⌈q⌉ := by
  have h1 : truncQ (-q) = ⌊-q⌋ := truncQ_of_nonneg (-q) (by linarith)
  have h2 : truncQ (-q) = - truncQ q := by
    unfold truncQ
    rw [Rat.num_neg_eq_neg_num, Rat.neg_den, Int.neg_tdiv]
  rw [Int.floor_neg] at h1
  omega

/-! ## The extractor: fail-soft behaviour -/

/-- C1: `parseMarketActivity` is a total function, and on every record in which some field it
accesses is absent or of the wrong shape (`Malformed`) it returns exactly the all-defaults
record, whatever the other fields hold. -/
theorem parseMarketActivity_malformed_default (rt : Runtime) (tx : Record)
    (h : Malformed tx = true) : parseMarketActivity rt tx = RawTx.zero := by
  unfold parseMarketActivity
  rw [parseBody_of_malformed rt tx h]
  rfl

/-- A record with valid height, hash, caller and first event, and a later unreadable attribute,
yields the all-defaults record. -/
theorem parseMarketActivity_malformed_default_witness :
    Malformed txBadLateAttr = true ∧
      parseMarketActivity sampleRuntime txBadLateAttr
        = { Typ := "", Amount := .fin 0, Caller := "", Hash := "", BlockHeight := 0,
            IsAmountInShares := false } :=
  ⟨by decide, parseMarketActivity_malformed_default sampleRuntime txBadLateAttr (by decide)⟩

/-! ## The extractor: amount and flag -/

/-- C2 (as the code has it): on a well-formed record the flag is true exactly when some matching
attribute (key among `amount`/`assets`/`shares`, value parsing to a non-zero number) has key
`shares`; when a `shares` match is followed later by a last match of any key, the amount is
that of the last match and the flag stays true. -/
theorem parseMarketActivity_flag_any_shares (rt : Runtime) (tx response : Record)
    (evs : List Value) (wf : Malformed tx = false)
    (hr : lookup tx "response" = .object response)
    (he : lookup response "events" = .array evs) :
    (parseMarketActivity rt tx).IsAmountInShares
        = (matchesOf rt evs).any (fun m => m.1 == "shares") ∧
      ∀ (pre mid : List (String × Float64)) (x y : Float64) (k : String),
        matchesOf rt evs = pre ++ ("shares", x) :: (mid ++ [(k, y)]) →
          (parseMarketActivity rt tx).Amount = y ∧
            (parseMarketActivity rt tx).IsAmountInShares = true := by
  obtain ⟨height, hash, caller, msgMap, valueMap, response2, rest, evs2,
    hb, hh, hm, hv, hc, hr2, he2, hg⟩ := shape_of_not_malformed tx wf
  rw [hr] at hr2
  cases hr2
  rw [he] at he2
  cases he2
  have hp := parseBody_of_shape rt tx height hash caller msgMap valueMap response rest evs
    hb hh hm hv hc hr he hg
  unfold parseMarketActivity
  rw [hp]
  refine ⟨rfl, ?_⟩
  intro pre mid x y k hms
  simp only [Option.getD_some]
  rw [hms]
  constructor
  · rw [← List.cons_append, ← List.append_assoc, List.getLast?_concat]
    rfl
  · simp

/-- The flag on the record with `shares` = "10" then `amount` = "3". -/
theorem parseMarketActivity_flag_any_shares_witness :
    Malformed txSharesThenAmount = false ∧
      (parseMarketActivity sampleRuntime txSharesThenAmount).IsAmountInShares = true :=
  ⟨by decide,
   (parseMarketActivity_flag_any_shares sampleRuntime txSharesThenAmount
      [("events", .array [mkEvent "Supply" [mkAttr "shares" "10", mkAttr "amount" "3"]])]
      [mkEvent "Supply" [mkAttr "shares" "10", mkAttr "amount" "3"]]
      (by decide) rfl rfl).1.trans (by decide)⟩

/-- C2 fails as stated: on the well-formed record whose attributes are `shares` = "10" then
`amount` = "3", the amount is 3 and the flag is true, not false. -/
theorem shares_then_amount_flag_not_reset :
    Malformed txSharesThenAmount = false ∧
      matchesOf sampleRuntime
          [mkEvent "Supply" [mkAttr "shares" "10", mkAttr "amount" "3"]]
        = [("shares", .fin 10), ("amount", .fin 3)] ∧
      (parseMarketActivity sampleRuntime txSharesThenAmount).Amount = .fin 3 ∧
      ¬ (parseMarketActivity sampleRuntime txSharesThenAmount).IsAmountInShares = false := by
  decide

/-- C3: on a well-formed record the amount is the parsed value of the last matching attribute
(key among `amount`/`assets`/`shares`, string value parsing to a non-zero number) in encounter
order across all events and attributes, and 0 when there is none; zero-valued or unparsable
values and other keys are not matches and so never change it. -/
theorem parseMarketActivity_amount_last_match (rt : Runtime) (tx response : Record)
    (evs : List Value) (wf : Malformed tx = false)
    (hr : lookup tx "response" = .object response)
    (he : lookup response "events" = .array evs) :
    (parseMarketActivity rt tx).Amount
      = ((matchesOf rt evs).getLast?.map Prod.snd).getD (Float64.fin 0) := by
  obtain ⟨height, hash, caller, msgMap, valueMap, response2, rest, evs2,
    hb, hh, hm, hv, hc, hr2, he2, hg⟩ := shape_of_not_malformed tx wf
  rw [hr] at hr2
  cases hr2
  rw [he] at he2
  cases he2
  have hp := parseBody_of_shape rt tx height hash caller msgMap valueMap response rest evs
    hb hh hm hv hc hr he hg
  unfold parseMarketActivity
  rw [hp]
  rfl

/-- Two `amount` attributes with values 5 then 0 give amount 5. -/
theorem parseMarketActivity_amount_last_match_witness :
    Malformed txFiveThenZero = false ∧
      matchesOf sampleRuntime
          [mkEvent "Supply" [mkAttr "amount" "5"], mkEvent "Fee" [mkAttr "amount" "0"]]
        = [("amount", .fin 5)] ∧
      (parseMarketActivity sampleRuntime txFiveThenZero).Amount = .fin 5 :=
  ⟨by decide, by decide,
   (parseMarketActivity_amount_last_match sampleRuntime txFiveThenZero
      [("events", .array
        [mkEvent "Supply" [mkAttr "amount" "5"], mkEvent "Fee" [mkAttr "amount" "0"]])]
      [mkEvent "Supply" [mkAttr "amount" "5"], mkEvent "Fee" [mkAttr "amount" "0"]]
      (by decide) rfl rfl).trans (by decide)⟩

/-! ## The extractor: hash, caller, height and type -/

/-- C4 (as the code has it): on a well-formed record the hash is the record's `hash` string and
the caller is the `caller` string inside the `value` of the first message (the remaining
messages are not read). The block height is the numeric `block_height` truncated toward zero
(its floor when it is non-negative, its ceiling when it is negative) whenever that truncation
is an `int64`; for any other height it is what the conversion `int64(x)` gives out of range. -/
theorem parseMarketActivity_hash_caller_height (rt : Runtime) (tx msgMap valueMap : Record)
    (x : Float64) (hash caller : String) (rest : List Value) (wf : Malformed tx = false)
    (hb : lookup tx "block_height" = .number x)
    (hh : lookup tx "hash" = .string hash)
    (hm : lookup tx "messages" = .array (.object msgMap :: rest))
    (hv : lookup msgMap "value" = .object valueMap)
    (hc : lookup valueMap "caller" = .string caller) :
    (parseMarketActivity rt tx).Hash = hash ∧
      (parseMarketActivity rt tx).Caller = caller ∧
      (∀ q : ℚ, x = .fin q → (Float64.fin q).fitsInt64 = true →
        (parseMarketActivity rt tx).BlockHeight = (if 0 ≤ q then ⌊q⌋ else ⌈q⌉)) ∧
      (x.fitsInt64 = false → (parseMarketActivity rt tx).BlockHeight = rt.int64Overflow x) := by
  obtain ⟨height2, hash2, caller2, msgMap2, valueMap2, response, rest2, evs,
    hb2, hh2, hm2, hv2, hc2, hr, he, hg⟩ := shape_of_not_malformed tx wf
  have hp := parseBody_of_shape rt tx x hash caller msgMap valueMap response rest evs
    hb hh hm hv hc hr he hg
  unfold parseMarketActivity
  rw [hp]
  refine ⟨rfl, rfl, ?_, ?_⟩
  · intro q hx hfit
    subst hx
    simp only [Option.getD_some, Runtime.toInt64, hfit, if_true]
    by_cases hq : 0 ≤ q
    · rw [if_pos hq, truncQ_of_nonneg q hq]
    · rw [if_neg hq, truncQ_of_neg q (not_le.mp hq)]
  · intro hfit
    cases x with
    | fin q => simp [Runtime.toInt64, hfit]
    | posInf => rfl
    | negInf => rfl
    | nan => rfl

/-- A record with height 7/2 and two messages: height 3 and the caller of the first message. -/
theorem parseMarketActivity_hash_caller_height_witness :
    Malformed txTwoMessages = false ∧
      (parseMarketActivity sampleRuntime txTwoMessages).BlockHeight = 3 ∧
      (parseMarketActivity sampleRuntime txTwoMessages).Hash = "0xa5" ∧
      (parseMarketActivity sampleRuntime txTwoMessages).Caller = "g1first" ∧
      (parseMarketActivity sampleRuntime txTwoMessages).BlockHeight
        = (if 0 ≤ sevenHalves then ⌊sevenHalves⌋ else ⌈sevenHalves⌉) :=
  ⟨by decide, by decide,
   (parseMarketActivity_hash_caller_height sampleRuntime txTwoMessages
     [("value", .object [("caller", .string "g1first")])] [("caller", .string "g1first")]
     (.fin sevenHalves) "0xa5" "g1first"
     [.object [("value", .object [("caller", .string "g1second")])]]
     (by decide) rfl rfl rfl rfl rfl).1,
   (parseMarketActivity_hash_caller_height sampleRuntime txTwoMessages
     [("value", .object [("caller", .string "g1first")])] [("caller", .string "g1first")]
     (.fin sevenHalves) "0xa5" "g1first"
     [.object [("value", .object [("caller", .string "g1second")])]]
     (by decide) rfl rfl rfl rfl rfl).2.1,
   (parseMarketActivity_hash_caller_height sampleRuntime txTwoMessages
     [("value", .object [("caller", .string "g1first")])] [("caller", .string "g1first")]
     (.fin sevenHalves) "0xa5" "g1first"
     [.object [("value", .object [("caller", .string "g1second")])]]
     (by decide) rfl rfl rfl rfl rfl).2.2.1 sevenHalves rfl (by decide)⟩

/-- C4 fails as stated: the well-formed record whose `block_height` is `1e19` has the
truncated height `10^19`, which no `int64` holds; the block height returned is the result of
the out-of-range conversion (`-2^63` on `amd64`) and, on every platform, differs from the
truncated height. -/
theorem height_beyond_int64_not_truncated :
    Malformed txHugeHeight = false ∧
      lookup txHugeHeight "block_height" = .number (.fin tenToNineteen) ∧
      ⌊tenToNineteen⌋ = 10000000000000000000 ∧
      (parseMarketActivity sampleRuntime txHugeHeight).BlockHeight = -9223372036854775808 ∧
      ¬ (parseMarketActivity sampleRuntime txHugeHeight).BlockHeight = 10000000000000000000 ∧
      ∀ rt : Runtime, rt.int64Overflow (.fin tenToNineteen) < 2 ^ 63 →
        (parseMarketActivity rt txHugeHeight).BlockHeight ≠ ⌊tenToNineteen⌋ := by
  have hfloor : ⌊tenToNineteen⌋ = 10000000000000000000 := by
    rw [← truncQ_of_nonneg tenToNineteen (Rat.num_nonneg.mp (by decide))]
    decide
  refine ⟨by decide, rfl, hfloor, by decide, by decide, ?_⟩
  intro rt hlt heq
  have hval : (parseMarketActivity rt txHugeHeight).BlockHeight
      = rt.int64Overflow (.fin tenToNineteen) := by
    have hfit : (Float64.fin tenToNineteen).fitsInt64 = false := by decide
    have hp := parseBody_of_shape rt txHugeHeight (.fin tenToNineteen) "0xe1" "g1user"
      [("value", .object [("caller", .string "g1user")])] [("caller", .string "g1user")]
      [("events", .array [mkEvent "Supply" [mkAttr "amount" "5"]])] []
      [mkEvent "Supply" [mkAttr "amount" "5"]] rfl rfl rfl rfl rfl rfl rfl (by decide)
    unfold parseMarketActivity
    rw [hp]
    simp [Runtime.toInt64, hfit]
  rw [hval, hfloor] at heq
  rw [heq] at hlt
  exact absurd hlt (by decide)

/-- C5: on a well-formed record with a non-empty event list the type is the `type` string of
the last event of `response.events`, whichever event supplied the amount; with an empty event
list the type is the empty string. -/
theorem parseMarketActivity_type_last_event (rt : Runtime) (tx response : Record)
    (evs : List Value) (wf : Malformed tx = false)
    (hr : lookup tx "response" = .object response)
    (he : lookup response "events" = .array evs) :
    (evs = [] → (parseMarketActivity rt tx).Typ = "") ∧
      (evs ≠ [] → ∃ (evMap : Record) (t : String), evs.getLast? = some (.object evMap) ∧
        lookup evMap "type" = .string t ∧ (parseMarketActivity rt tx).Typ = t) := by
  obtain ⟨height, hash, caller, msgMap, valueMap, response2, rest, evs2,
    hb, hh, hm, hv, hc, hr2, he2, hg⟩ := shape_of_not_malformed tx wf
  rw [hr] at hr2
  cases hr2
  rw [he] at he2
  cases he2
  have hp := parseBody_of_shape rt tx height hash caller msgMap valueMap response rest evs
    hb hh hm hv hc hr he hg
  unfold parseMarketActivity
  rw [hp]
  constructor
  · intro hnil
    subst hnil
    rfl
  · intro hne
    have hlast : evs.getLast? = some (evs.getLast hne) := List.getLast?_eq_getLast evs hne
    have hgood : badEvent (evs.getLast hne) = false := by
      cases hbad : badEvent (evs.getLast hne)
      · rfl
      · have : evs.any badEvent = true :=
          List.any_eq_true.mpr ⟨evs.getLast hne, List.getLast_mem hne, hbad⟩
        rw [hg] at this
        cases this
    cases hev : evs.getLast hne <;> simp [hev, badEvent] at hgood
    rename_i evMap
    cases ht : lookup evMap "type" <;> simp [ht] at hgood
    rename_i t
    refine ⟨evMap, t, by rw [hlast, hev], ht, ?_⟩
    simp only [Option.getD_some, lastType, hlast, hev, Option.map_some', eventType, ht]

/-- The amount comes from the `Borrow` event, the type from the last event, `Fee`. -/
theorem parseMarketActivity_type_last_event_witness :
    Malformed txTwoEvents = false ∧
      (parseMarketActivity sampleRuntime txTwoEvents).Amount = .fin 8 ∧
      (parseMarketActivity sampleRuntime txTwoEvents).Typ = "Fee" ∧
      ([mkEvent "Borrow" [mkAttr "assets" "8"], mkEvent "Fee" []] ≠ [] →
        ∃ (evMap : Record) (t : String),
          [mkEvent "Borrow" [mkAttr "assets" "8"], mkEvent "Fee" []].getLast?
            = some (.object evMap) ∧
          lookup evMap "type" = .string t ∧
          (parseMarketActivity sampleRuntime txTwoEvents).Typ = t) :=
  ⟨by decide, by decide, by decide,
   (parseMarketActivity_type_last_event sampleRuntime txTwoEvents
      [("events", .array [mkEvent "Borrow" [mkAttr "assets" "8"], mkEvent "Fee" []])]
      [mkEvent "Borrow" [mkAttr "assets" "8"], mkEvent "Fee" []]
      (by decide) rfl rfl).2⟩

/-- C6: a record whose `messages` key is missing, is not a list, is an empty list, or whose
first element lacks the `value.caller` string path yields the all-default record, whatever
`block_height`, `hash` and the events hold. -/
theorem parseMarketActivity_bad_messages_default (rt : Runtime) (tx : Record)
    (h : badMessages tx = true) : parseMarketActivity rt tx = RawTx.zero := by
  unfold parseMarketActivity
  rw [parseBody_of_badMessages rt tx h]
  rfl

/-- An empty `messages` list yields the all-defaults record. -/
theorem parseMarketActivity_bad_messages_default_witness :
    badMessages txNoMessages = true ∧
      parseMarketActivity sampleRuntime txNoMessages
        = { Typ := "", Amount := .fin 0, Caller := "", Hash := "", BlockHeight := 0,
            IsAmountInShares := false } :=
  ⟨by decide, parseMarketActivity_bad_messages_default sampleRuntime txNoMessages (by decide)⟩

/-! ## The reconstructor -/

/-- C7: when the indexer query and the timestamp resolution both succeed, `GetMarketActivity`
returns one entry per transaction of the response, in the response's order: the entry at
index `i` has the type, amount, caller, hash and flag of `parseMarketActivity` applied to the
transaction at index `i` (degraded records included). -/
theorem GetMarketActivity_entry_per_transaction {ε : Type} (rt : Runtime)
    (env : Collaborators ε) (marketId : String) (resp : Bytes) (heightToTime : TimeMap)
    (hx : env.Execute marketId = .ok resp)
    (hf : env.FetchBlockTimestamps (heightsOf rt (env.Unmarshal resp)) = .ok heightToTime) :
    ∃ out : List MarketActivity,
      (GetMarketActivity rt env marketId).ret = .ok out ∧
      out.length = (env.Unmarshal resp).length ∧
      ∀ (i : Nat) (tx : Record), (env.Unmarshal resp)[i]? = some tx →
        ∃ a : MarketActivity, out[i]? = some a ∧
          a.Typ = (parseMarketActivity rt tx).Typ ∧
          a.Amount = (parseMarketActivity rt tx).Amount ∧
          a.Caller = (parseMarketActivity rt tx).Caller ∧
          a.Hash = (parseMarketActivity rt tx).Hash ∧
          a.IsAmountInShares = (parseMarketActivity rt tx).IsAmountInShares := by
  rw [GetMarketActivity_of_execute_ok rt env marketId resp hx, hf]
  refine ⟨_, rfl, by simp, ?_⟩
  intro i tx hi
  refine ⟨joinTimestamp heightToTime (parseMarketActivity rt tx), ?_, rfl, rfl, rfl, rfl, rfl⟩
  simp [List.getElem?_map, hi]

/-- Three transactions, the second of them degraded, give three entries. -/
theorem GetMarketActivity_entry_per_transaction_witness :
    ∃ out : List MarketActivity,
      (GetMarketActivity sampleRuntime
          (staticEnv [txFiveThenZero, txNoMessages, txSharesThenAmount] []) "m1").ret = .ok out ∧
      out.length = 3 ∧
      ∀ (i : Nat) (tx : Record),
        [txFiveThenZero, txNoMessages, txSharesThenAmount][i]? = some tx →
        ∃ a : MarketActivity, out[i]? = some a ∧
          a.Typ = (parseMarketActivity sampleRuntime tx).Typ ∧
          a.Amount = (parseMarketActivity sampleRuntime tx).Amount ∧
          a.Caller = (parseMarketActivity sampleRuntime tx).Caller ∧
          a.Hash = (parseMarketActivity sampleRuntime tx).Hash ∧
          a.IsAmountInShares = (parseMarketActivity sampleRuntime tx).IsAmountInShares :=
  GetMarketActivity_entry_per_transaction sampleRuntime
    (staticEnv [txFiveThenZero, txNoMessages, txSharesThenAmount] []) "m1" [] [] rfl rfl

/-- C8: when `GetMarketActivity` succeeds, the timestamp of the entry at index `i` is the string
the resolver's map holds for the block height extracted from the transaction at index `i`, and
the empty string when the map has no entry for that height; a missing height does not make
the call fail. -/
theorem GetMarketActivity_timestamp_join {ε : Type} (rt : Runtime)
    (env : Collaborators ε) (marketId : String) (resp : Bytes) (heightToTime : TimeMap)
    (hx : env.Execute marketId = .ok resp)
    (hf : env.FetchBlockTimestamps (heightsOf rt (env.Unmarshal resp)) = .ok heightToTime) :
    ∃ out : List MarketActivity,
      (GetMarketActivity rt env marketId).ret = .ok out ∧
      ∀ (i : Nat) (tx : Record), (env.Unmarshal resp)[i]? = some tx →
        ∃ a : MarketActivity, out[i]? = some a ∧
          (∀ t : String,
            List.lookup (parseMarketActivity rt tx).BlockHeight heightToTime = some t →
              a.Timestamp = t) ∧
          (List.lookup (parseMarketActivity rt tx).BlockHeight heightToTime = none →
              a.Timestamp = "") := by
  rw [GetMarketActivity_of_execute_ok rt env marketId resp hx, hf]
  refine ⟨_, rfl, ?_⟩
  intro i tx hi
  refine ⟨joinTimestamp heightToTime (parseMarketActivity rt tx), ?_, ?_, ?_⟩
  · simp [List.getElem?_map, hi]
  · intro t ht
    simp [joinTimestamp, TimeMap.get, ht]
  · intro ht
    simp [joinTimestamp, TimeMap.get, ht]

/-- Heights 100 and 200 with the map 100 to "t1", 200 to "t2" give the timestamps "t1" and "t2" in
input order; without an entry for 200 the second timestamp is empty. -/
theorem GetMarketActivity_timestamp_join_witness :
    heightsOf sampleRuntime twoHeights = [100, 200] ∧
      (∃ out : List MarketActivity,
        (GetMarketActivity sampleRuntime
            (staticEnv twoHeights [(100, "t1"), (200, "t2")]) "m1").ret = .ok out ∧
        ∀ (i : Nat) (tx : Record), twoHeights[i]? = some tx →
          ∃ a : MarketActivity, out[i]? = some a ∧
            (∀ t : String,
              List.lookup (parseMarketActivity sampleRuntime tx).BlockHeight
                  [(100, "t1"), (200, "t2")] = some t → a.Timestamp = t) ∧
            (List.lookup (parseMarketActivity sampleRuntime tx).BlockHeight
                  [(100, "t1"), (200, "t2")] = none → a.Timestamp = "")) ∧
      (GetMarketActivity sampleRuntime
          (staticEnv twoHeights [(100, "t1"), (200, "t2")]) "m1").ret
        = .ok [{ Typ := "Supply", Amount := .fin 5, Caller := "g1user", Hash := "0xb1",
                 Timestamp := "t1", IsAmountInShares := false },
               { Typ := "Withdraw", Amount := .fin 4, Caller := "g1user", Hash := "0xb2",
                 Timestamp := "t2", IsAmountInShares := true }] ∧
      (GetMarketActivity sampleRuntime (staticEnv twoHeights [(100, "t1")]) "m1").ret
        = .ok [{ Typ := "Supply", Amount := .fin 5, Caller := "g1user", Hash := "0xb1",
                 Timestamp := "t1", IsAmountInShares := false },
               { Typ := "Withdraw", Amount := .fin 4, Caller := "g1user", Hash := "0xb2",
                 Timestamp := "", IsAmountInShares := true }] :=
  ⟨by decide,
   GetMarketActivity_timestamp_join sampleRuntime
     (staticEnv twoHeights [(100, "t1"), (200, "t2")]) "m1" [] [(100, "t1"), (200, "t2")]
     rfl rfl,
   by rfl, by rfl⟩

/-- C9: if `FetchBlockTimestamps` returns an error, `GetMarketActivity` returns no list
together with exactly that error, whatever the indexer response holds. -/
theorem GetMarketActivity_resolver_error {ε : Type} (rt : Runtime)
    (env : Collaborators ε) (marketId : String) (resp : Bytes) (err : ε)
    (hx : env.Execute marketId = .ok resp)
    (hf : env.FetchBlockTimestamps (heightsOf rt (env.Unmarshal resp)) = .error err) :
    (GetMarketActivity rt env marketId).ret = .error err := by
  rw [GetMarketActivity_of_execute_ok rt env marketId resp hx, hf]

/-- A failing resolver after two extracted records. -/
theorem GetMarketActivity_resolver_error_witness :
    (parseMarketActivity sampleRuntime txFiveThenZero).Amount = .fin 5 ∧
      (GetMarketActivity sampleRuntime (resolverDownEnv [txFiveThenZero, txTwoEvents]) "m1").ret
        = .error "resolver down" :=
  ⟨by decide,
   GetMarketActivity_resolver_error sampleRuntime (resolverDownEnv [txFiveThenZero, txTwoEvents])
     "m1" [] "resolver down" rfl rfl⟩

/-- C10: if `qb.Execute` returns an error, `GetMarketActivity` returns no list together with
exactly that error, and the only collaborator call it made is that one `Execute`: no second
query and no call of the timestamp resolver. -/
theorem GetMarketActivity_query_error {ε : Type} (rt : Runtime)
    (env : Collaborators ε) (marketId : String) (err : ε)
    (hx : env.Execute marketId = .error err) :
    (GetMarketActivity rt env marketId).ret = .error err ∧
      (GetMarketActivity rt env marketId).calls = [Call.Execute marketId] := by
  unfold GetMarketActivity
  rw [hx]
  exact ⟨rfl, rfl⟩

/-- A failing indexer query. -/
theorem GetMarketActivity_query_error_witness :
    (GetMarketActivity sampleRuntime indexerDownEnv "m1").ret = .error "indexer down" ∧
      (GetMarketActivity sampleRuntime indexerDownEnv "m1").calls = [Call.Execute "m1"] :=
  GetMarketActivity_query_error sampleRuntime indexerDownEnv "m1" "indexer down" rfl

/-! ## The reconstructor: zero transactions, the resolver call, the envelope -/

/-- C11 (as the code has it): when the indexer response holds zero transactions,
`GetMarketActivity` still calls the timestamp resolver, with an empty height list; it returns an
empty list and no error when that call succeeds, and the resolver's error when it fails. -/
theorem GetMarketActivity_zero_transactions {ε : Type} (rt : Runtime)
    (env : Collaborators ε) (marketId : String) (resp : Bytes)
    (hx : env.Execute marketId = .ok resp) (hz : env.Unmarshal resp = []) :
    (GetMarketActivity rt env marketId).calls
        = [Call.Execute marketId, Call.FetchBlockTimestamps []] ∧
      (∀ heightToTime : TimeMap, env.FetchBlockTimestamps [] = .ok heightToTime →
        (GetMarketActivity rt env marketId).ret = .ok []) ∧
      (∀ err : ε, env.FetchBlockTimestamps [] = .error err →
        (GetMarketActivity rt env marketId).ret = .error err) := by
  rw [GetMarketActivity_of_execute_ok rt env marketId resp hx, hz]
  have hh : heightsOf rt [] = [] := rfl
  rw [hh]
  cases hf : env.FetchBlockTimestamps [] with
  | error e =>
    refine ⟨rfl, ?_, ?_⟩
    · intro tm h; cases h
    · intro err h; cases h; rfl
  | ok tm =>
    refine ⟨rfl, ?_, ?_⟩
    · intro tm2 h; rfl
    · intro err h; cases h

/-- A response without transactions and a resolver that answers: an empty list, no error. -/
theorem GetMarketActivity_zero_transactions_witness :
    (GetMarketActivity sampleRuntime (staticEnv [] [(100, "t1")]) "m1").ret = .ok [] :=
  (GetMarketActivity_zero_transactions sampleRuntime (staticEnv [] [(100, "t1")]) "m1" []
    rfl rfl).2.1 [(100, "t1")] rfl

/-- C11 fails as stated: with zero transactions in the response and a failing resolver,
`GetMarketActivity` returns the resolver's error, not an empty list. -/
theorem zero_transactions_resolver_error :
    noTransactionsResolverDown.Execute "m1" = .ok [] ∧
      noTransactionsResolverDown.Unmarshal [] = [] ∧
      (GetMarketActivity sampleRuntime noTransactionsResolverDown "m1").ret
        = .error "resolver down" ∧
      ¬ (GetMarketActivity sampleRuntime noTransactionsResolverDown "m1").ret = .ok [] := by
  refine ⟨rfl, rfl, rfl, ?_⟩
  intro h
  cases h

/-- C12: after a successful indexer query `GetMarketActivity` makes exactly one call of the
timestamp resolver, and its argument lists the extracted block height of every record, in
record order and with duplicates: it is as long as the transaction list, its entry at index
`i` is the height extracted from the transaction at index `i`, which is 0 for a degraded
record. The result is the answer of the resolver at that argument, joined to the records or
returned as the error, and depends on the resolver through that one answer only. -/
theorem GetMarketActivity_resolver_called_once {ε : Type} (rt : Runtime)
    (env : Collaborators ε) (marketId : String) (resp : Bytes)
    (hx : env.Execute marketId = .ok resp) :
    ∃ heights : List Int,
      (GetMarketActivity rt env marketId).calls
        = [Call.Execute marketId, Call.FetchBlockTimestamps heights] ∧
      heights.length = (env.Unmarshal resp).length ∧
      (∀ (i : Nat) (tx : Record), (env.Unmarshal resp)[i]? = some tx →
        heights[i]? = some (parseMarketActivity rt tx).BlockHeight ∧
        (Malformed tx = true → heights[i]? = some 0)) ∧
      (∀ err : ε, env.FetchBlockTimestamps heights = .error err →
        (GetMarketActivity rt env marketId).ret = .error err) ∧
      (∀ heightToTime : TimeMap, env.FetchBlockTimestamps heights = .ok heightToTime →
        (GetMarketActivity rt env marketId).ret
          = .ok ((env.Unmarshal resp).map
              (fun tx => joinTimestamp heightToTime (parseMarketActivity rt tx)))) ∧
      (∀ env2 : Collaborators ε, env2.Execute marketId = .ok resp →
        env2.Unmarshal resp = env.Unmarshal resp →
        env2.FetchBlockTimestamps heights = env.FetchBlockTimestamps heights →
        (GetMarketActivity rt env2 marketId).ret = (GetMarketActivity rt env marketId).ret ∧
        (GetMarketActivity rt env2 marketId).calls
          = (GetMarketActivity rt env marketId).calls) := by
  refine ⟨heightsOf rt (env.Unmarshal resp), ?_, by simp [heightsOf], ?_, ?_, ?_, ?_⟩
  · rw [GetMarketActivity_of_execute_ok rt env marketId resp hx]
    cases env.FetchBlockTimestamps (heightsOf rt (env.Unmarshal resp)) <;> rfl
  · intro i tx hi
    have h1 : (heightsOf rt (env.Unmarshal resp))[i]?
        = some (parseMarketActivity rt tx).BlockHeight := by
      simp [heightsOf, List.getElem?_map, hi]
    refine ⟨h1, ?_⟩
    intro hbad
    rw [h1]
    unfold parseMarketActivity
    rw [parseBody_of_malformed rt tx hbad]
    rfl
  · intro err hf
    rw [GetMarketActivity_of_execute_ok rt env marketId resp hx, hf]
  · intro tm hf
    rw [GetMarketActivity_of_execute_ok rt env marketId resp hx, hf]
  · intro env2 hx2 hu2 hf2
    rw [GetMarketActivity_of_execute_ok rt env marketId resp hx,
      GetMarketActivity_of_execute_ok rt env2 marketId resp hx2, hu2, hf2]
    exact ⟨rfl, rfl⟩

/-- Three records, the second degraded and the third at the height of the first, and a
resolver that answers the height list 100, 0, 100 only: one resolver call with these heights,
and its timestamps in the result. -/
theorem GetMarketActivity_resolver_called_once_witness :
    (GetMarketActivity sampleRuntime
        (pickyEnv [txFiveThenZero, txNoMessages, txSharesThenAmount] [100, 0, 100]
          [(100, "t1"), (0, "t0")]) "m1").calls
      = [Call.Execute "m1", Call.FetchBlockTimestamps [100, 0, 100]] ∧
    (GetMarketActivity sampleRuntime
        (pickyEnv [txFiveThenZero, txNoMessages, txSharesThenAmount] [100, 0, 100]
          [(100, "t1"), (0, "t0")]) "m1").ret
      = .ok [{ Typ := "Fee", Amount := .fin 5, Caller := "g1user", Hash := "0xa2",
               Timestamp := "t1", IsAmountInShares := false },
             { Typ := "", Amount := .fin 0, Caller := "", Hash := "",
               Timestamp := "t0", IsAmountInShares := false },
             { Typ := "Supply", Amount := .fin 3, Caller := "g1user", Hash := "0xa1",
               Timestamp := "t1", IsAmountInShares := true }] ∧
    (GetMarketActivity sampleRuntime
        (pickyEnv [txFiveThenZero, txNoMessages, txSharesThenAmount] [100, 100]
          [(100, "t1"), (0, "t0")]) "m1").ret
      = .error "unexpected heights" ∧
    ∃ heights : List Int,
      (GetMarketActivity sampleRuntime
          (pickyEnv [txFiveThenZero, txNoMessages, txSharesThenAmount] [100, 0, 100]
            [(100, "t1"), (0, "t0")]) "m1").calls
        = [Call.Execute "m1", Call.FetchBlockTimestamps heights] ∧
      heights.length = 3 :=
  ⟨by decide, by rfl, by rfl,
   (GetMarketActivity_resolver_called_once sampleRuntime
     (pickyEnv [txFiveThenZero, txNoMessages, txSharesThenAmount] [100, 0, 100]
       [(100, "t1"), (0, "t0")]) "m1" [] rfl).imp (fun _ h => ⟨h.1, h.2.1⟩)⟩

theorem zeroTransactionsRun_of_empty {ε : Type} (rt : Runtime) (env : Collaborators ε)
    (marketId : String) (resp : Bytes) (hx : env.Execute marketId = .ok resp)
    (hz : env.Unmarshal resp = []) : ZeroTransactionsRun rt env marketId := by
  unfold ZeroTransactionsRun
  rw [GetMarketActivity_of_execute_ok rt env marketId resp hx, hz]
  have hh : heightsOf rt [] = [] := rfl
  rw [hh]
  cases hf : env.FetchBlockTimestamps [] with
  | error e => exact ⟨rfl, fun tm h => by cases h⟩
  | ok tm => exact ⟨rfl, fun tm2 _ => rfl⟩

/-- C13 (as the code has it): the error of `json.Unmarshal` is ignored and the transactions are
whatever the decoding left. A body that is invalid JSON, or valid JSON in which no list reaches
`getTransactions` (the document is not an object; no member selects `data`, or the one that
does is not an object; no member of it selects `getTransactions`, or the one that does is not
a list; member names select a field up to case) is treated as zero transactions: the resolver
is called with no height and, if it succeeds, the result is an empty list with no error. When
`getTransactions` is a list, every element of it yields one entry, whether or not the decoding
reported an error: an element that is not an object yields the all-defaults record. Documents
in which a field is selected by several members are left aside. -/
theorem GetMarketActivity_envelope {ε : Type} (rt : Runtime)
    (env : Collaborators ε) (marketId : String) (resp : Bytes) (lib : JSONLib)
    (hx : env.Execute marketId = .ok resp)
    (hu : env.Unmarshal resp = (lib.unmarshal resp).1) :
    (lib.parse resp = none → ZeroTransactionsRun rt env marketId) ∧
      (∀ doc : Value, lib.parse resp = some doc →
        (∀ members : List (String × Value), doc ≠ .object members) →
        ZeroTransactionsRun rt env marketId) ∧
      (∀ (members : List (String × Value)), lib.parse resp = some (.object members) →
        (lib.member "data" members = .absent ∨
          ∃ v : Value, lib.member "data" members = .one v ∧
            ∀ dataMembers : List (String × Value), v ≠ .object dataMembers) →
        ZeroTransactionsRun rt env marketId) ∧
      (∀ (members dataMembers : List (String × Value)),
        lib.parse resp = some (.object members) →
        lib.member "data" members = .one (.object dataMembers) →
        (lib.member "getTransactions" dataMembers = .absent ∨
          ∃ v : Value, lib.member "getTransactions" dataMembers = .one v ∧
            ∀ elems : List Value, v ≠ .array elems) →
        ZeroTransactionsRun rt env marketId) ∧
      (∀ (members dataMembers : List (String × Value)) (elems : List Value),
        lib.parse resp = some (.object members) →
        lib.member "data" members = .one (.object dataMembers) →
        lib.member "getTransactions" dataMembers = .one (.array elems) →
        (lib.unmarshal resp).2 = elems.any elementMistyped ∧
        (∀ e ∈ elems, (∀ m : Record, e ≠ .object m) →
          parseMarketActivity rt (elementMap e) = RawTx.zero) ∧
        ∀ heightToTime : TimeMap,
          env.FetchBlockTimestamps
              (elems.map (fun e => (parseMarketActivity rt (elementMap e)).BlockHeight))
            = .ok heightToTime →
          (GetMarketActivity rt env marketId).ret
            = .ok (elems.map
                (fun e => joinTimestamp heightToTime (parseMarketActivity rt (elementMap e))))) := by
  refine ⟨?_, ?_, ?_, ?_, ?_⟩
  · intro hp
    apply zeroTransactionsRun_of_empty rt env marketId resp hx
    rw [hu]
    unfold JSONLib.unmarshal
    rw [hp]
  · intro doc hp hno
    apply zeroTransactionsRun_of_empty rt env marketId resp hx
    rw [hu]
    unfold JSONLib.unmarshal
    rw [hp]
    cases doc with
    | object members => exact absurd rfl (hno members)
    | null => rfl
    | bool b => rfl
    | number x => rfl
    | string t => rfl
    | array xs => rfl
  · intro members hp hd
    apply zeroTransactionsRun_of_empty rt env marketId resp hx
    rw [hu]
    unfold JSONLib.unmarshal
    rw [hp]
    rcases hd with hd | ⟨v, hd, hno⟩
    · simp only [hd]
    · simp only [hd]
      cases v with
      | object dataMembers => exact absurd rfl (hno dataMembers)
      | null => rfl
      | bool b => rfl
      | number x => rfl
      | string t => rfl
      | array xs => rfl
  · intro members dataMembers hp hd hg
    apply zeroTransactionsRun_of_empty rt env marketId resp hx
    rw [hu]
    unfold JSONLib.unmarshal
    rw [hp]
    simp only [hd]
    rcases hg with hg | ⟨v, hg, hno⟩
    · simp only [hg]
    · simp only [hg]
      cases v with
      | array elems => exact absurd rfl (hno elems)
      | null => rfl
      | bool b => rfl
      | number x => rfl
      | string t => rfl
      | object m => rfl
  · intro members dataMembers elems hp hd hg
    have hun : lib.unmarshal resp = (elems.map elementMap, elems.any elementMistyped) := by
      unfold JSONLib.unmarshal
      rw [hp]
      simp only [hd, hg]
    refine ⟨by rw [hun], ?_, ?_⟩
    · intro e _ hne
      cases e with
      | object m => exact absurd rfl (hne m)
      | null => rfl
      | bool b => rfl
      | number x => rfl
      | string t => rfl
      | array xs => rfl
    · intro tm hf
      rw [GetMarketActivity_of_execute_ok rt env marketId resp hx, hu, hun]
      have hh : heightsOf rt (elems.map elementMap)
          = elems.map (fun e => (parseMarketActivity rt (elementMap e)).BlockHeight) := by
        simp [heightsOf, List.map_map, Function.comp_def]
      simp only [hh, hf, List.map_map, Function.comp_def]

/-- A body whose members are named in capitals and whose `getTransactions` is a string gives an
empty list; a body that is not JSON does too; a body with capitalised member names and a list
of one object gives one entry. -/
theorem GetMarketActivity_envelope_witness :
    sampleLib.parse notListText = some notListDoc ∧
      (sampleLib.unmarshal notListText).2 = true ∧
      ZeroTransactionsRun sampleRuntime (libEnv sampleLib notListText [(100, "t1")]) "m1" ∧
      (GetMarketActivity sampleRuntime (libEnv sampleLib notListText [(100, "t1")]) "m1").ret
        = .ok [] ∧
      sampleLib.parse (textBytes "not json") = none ∧
      (GetMarketActivity sampleRuntime
          (libEnv sampleLib (textBytes "not json") [(100, "t1")]) "m1").ret = .ok [] ∧
      sampleLib.parse capitalisedText = some capitalisedDoc ∧
      (GetMarketActivity sampleRuntime (libEnv sampleLib capitalisedText [(0, "t0")]) "m1").ret
        = .ok [{ Typ := "", Amount := .fin 0, Caller := "", Hash := "",
                 Timestamp := "t0", IsAmountInShares := false }] :=
  ⟨by rfl, by decide,
   (GetMarketActivity_envelope sampleRuntime (libEnv sampleLib notListText [(100, "t1")]) "m1"
      notListText sampleLib rfl rfl).2.2.2.1
      [("DATA", .object [("GETTRANSACTIONS", .string "none")])]
      [("GETTRANSACTIONS", .string "none")] (by rfl) (by rfl)
      (Or.inr ⟨.string "none", by rfl, fun _ h => by cases h⟩),
   by rfl, by rfl, by rfl, by rfl, by rfl⟩

set_option maxRecDepth 20000

/-- C13 fails as stated: a body whose `getTransactions` is a list of one valid record and the
number 5 fails to parse as the envelope (`json.Unmarshal` returns an error), and yet it is not
treated as zero transactions: two records are extracted and two entries returned. -/
theorem mixed_list_not_zero_transactions :
    sampleLib.parse mixedText = some mixedDoc ∧
      (sampleLib.unmarshal mixedText).2 = true ∧
      mixedEnv.Execute "m1" = .ok mixedText ∧
      (mixedEnv.Unmarshal mixedText).length = 2 ∧
      (GetMarketActivity sampleRuntime mixedEnv "m1").ret
        = .ok [{ Typ := "Fee", Amount := .fin 5, Caller := "g1user", Hash := "0xa2",
                 Timestamp := "t1", IsAmountInShares := false },
               { Typ := "", Amount := .fin 0, Caller := "", Hash := "",
                 Timestamp := "", IsAmountInShares := false }] ∧
      ¬ (GetMarketActivity sampleRuntime mixedEnv "m1").ret = .ok [] := by
  refine ⟨by rfl, by decide, rfl, by rfl, by rfl, ?_⟩
  intro h
  have h2 : (GetMarketActivity sampleRuntime mixedEnv "m1").ret
      = .ok [{ Typ := "Fee", Amount := .fin 5, Caller := "g1user", Hash := "0xa2",
               Timestamp := "t1", IsAmountInShares := false },
             { Typ := "", Amount := .fin 0, Caller := "", Hash := "",
               Timestamp := "", IsAmountInShares := false }] := by rfl
  rw [h2] at h
  cases h

/-! ## The HTTP handlers -/

theorem httpError_status_fresh (w : ResponseWriter) (msg : String) (code : Nat)
    (h : w.status = none) : (httpError w msg code).status = some code := by
  simp [httpError, ResponseWriter.Write, ResponseWriter.WriteHeader, ResponseWriter.setHeader,
    ResponseWriter.delHeader, h]

/-- C14: in both handlers a request whose `marketId` query parameter is missing or empty gets
status 400 and the service function is not called: the run is the same whatever the service
function is. A request with a non-empty `marketId` calls the service function exactly once,
with that market id: the response is made of the answer of the service at that id (status
500 and the error text for an error, status 200 and the encoded result otherwise) and depends
on the service function through that one answer only. -/
theorem handlers_require_marketId {ρ : Type} (GetAPRHistory GetUtilizationHistory :
    String → Except String ρ) (marshal : ρ → Option String) (query : Values) :
    (Values.Get query "marketId" = "" →
        (APRHistoryHandler GetAPRHistory marshal query).w.status = some 400 ∧
        (APRHistoryHandler GetAPRHistory marshal query).calls = [] ∧
        (TotalUtilizationHistoryHandler GetUtilizationHistory marshal query).w.status
          = some 400 ∧
        (TotalUtilizationHistoryHandler GetUtilizationHistory marshal query).calls = [] ∧
        ∀ other : String → Except String ρ,
          APRHistoryHandler other marshal query
            = APRHistoryHandler GetAPRHistory marshal query ∧
          TotalUtilizationHistoryHandler other marshal query
            = TotalUtilizationHistoryHandler GetUtilizationHistory marshal query) ∧
      (Values.Get query "marketId" ≠ "" →
        (APRHistoryHandler GetAPRHistory marshal query).calls
          = [Values.Get query "marketId"] ∧
        (TotalUtilizationHistoryHandler GetUtilizationHistory marshal query).calls
          = [Values.Get query "marketId"] ∧
        (∀ err : String, GetAPRHistory (Values.Get query "marketId") = .error err →
          (APRHistoryHandler GetAPRHistory marshal query).w.status = some 500 ∧
          (APRHistoryHandler GetAPRHistory marshal query).w.body = err ++ "\n") ∧
        (∀ (result : ρ) (text : String),
          GetAPRHistory (Values.Get query "marketId") = .ok result →
          marshal result = some text →
          (APRHistoryHandler GetAPRHistory marshal query).w.status = some 200 ∧
          (APRHistoryHandler GetAPRHistory marshal query).w.body = text ++ "\n") ∧
        (∀ err : String, GetUtilizationHistory (Values.Get query "marketId") = .error err →
          (TotalUtilizationHistoryHandler GetUtilizationHistory marshal query).w.status
            = some 500 ∧
          (TotalUtilizationHistoryHandler GetUtilizationHistory marshal query).w.body
            = "\x7b\"error\": \"" ++ err ++ "\"\x7d") ∧
        (∀ (result : ρ) (text : String),
          GetUtilizationHistory (Values.Get query "marketId") = .ok result →
          marshal result = some text →
          (TotalUtilizationHistoryHandler GetUtilizationHistory marshal query).w.status
            = some 200 ∧
          (TotalUtilizationHistoryHandler GetUtilizationHistory marshal query).w.body
            = text ++ "\n") ∧
        ∀ other : String → Except String ρ,
          (other (Values.Get query "marketId") = GetAPRHistory (Values.Get query "marketId") →
            APRHistoryHandler other marshal query
              = APRHistoryHandler GetAPRHistory marshal query) ∧
          (other (Values.Get query "marketId")
              = GetUtilizationHistory (Values.Get query "marketId") →
            TotalUtilizationHistoryHandler other marshal query
              = TotalUtilizationHistoryHandler GetUtilizationHistory marshal query)) := by
  constructor
  · intro h
    have hb : (Values.Get query "marketId" == "") = true := by
      simp [h]
    refine ⟨?_, ?_, ?_, ?_, ?_⟩
    · unfold APRHistoryHandler
      rw [if_pos hb]
      exact httpError_status_fresh _ _ _ rfl
    · unfold APRHistoryHandler
      rw [if_pos hb]
    · unfold TotalUtilizationHistoryHandler
      rw [if_pos hb]
      rfl
    · unfold TotalUtilizationHistoryHandler
      rw [if_pos hb]
    · intro other
      unfold APRHistoryHandler TotalUtilizationHistoryHandler
      rw [if_pos hb, if_pos hb, if_pos hb, if_pos hb]
      exact ⟨rfl, rfl⟩
  · intro h
    have hb : (Values.Get query "marketId" == "") = false := by
      simpa using h
    refine ⟨?_, ?_, ?_, ?_, ?_, ?_, ?_⟩
    · unfold APRHistoryHandler
      simp only [hb]
      cases GetAPRHistory (Values.Get query "marketId") <;> rfl
    · unfold TotalUtilizationHistoryHandler
      simp only [hb]
      cases GetUtilizationHistory (Values.Get query "marketId") <;> rfl
    · intro err he
      unfold APRHistoryHandler
      simp only [hb, he]
      exact ⟨httpError_status_fresh _ _ _ rfl, by
        simp [httpError, ResponseWriter.Write, ResponseWriter.WriteHeader,
          ResponseWriter.setHeader, ResponseWriter.delHeader, ResponseWriter.fresh]⟩
    · intro result text he hm
      unfold APRHistoryHandler
      simp only [hb, he]
      simp [encodeTo, hm, ResponseWriter.Write, ResponseWriter.WriteHeader,
        ResponseWriter.setHeader, ResponseWriter.fresh]
    · intro err he
      unfold TotalUtilizationHistoryHandler
      simp only [hb, he]
      simp [ResponseWriter.Write, ResponseWriter.WriteHeader, ResponseWriter.fresh]
    · intro result text he hm
      unfold TotalUtilizationHistoryHandler
      simp only [hb, he]
      simp [encodeTo, hm, ResponseWriter.Write, ResponseWriter.WriteHeader,
        ResponseWriter.setHeader, ResponseWriter.fresh]
    · intro other
      constructor
      · intro ho
        unfold APRHistoryHandler
        simp only [hb, ho]
      · intro ho
        unfold TotalUtilizationHistoryHandler
        simp only [hb, ho]

/-- A request without query and one with an empty `marketId` get 400; with the market ids
`m1` and `m2` in the query, a service that knows `m1` only is asked for `m1` and its answer 7
is the body, and a service that knows `m2` only answers with its error. -/
theorem handlers_require_marketId_witness :
    Values.Get [] "marketId" = "" ∧
      Values.Get [("marketId", [""])] "marketId" = "" ∧
      Values.Get [("marketId", ["m1", "m2"])] "marketId" = "m1" ∧
      (APRHistoryHandler (onlyService "m1" 7) sampleMarshal []).w.status = some 400 ∧
      (APRHistoryHandler (onlyService "m1" 7) sampleMarshal []).calls = [] ∧
      (TotalUtilizationHistoryHandler (onlyService "m1" 7) sampleMarshal
        [("marketId", [""])]).w.status = some 400 ∧
      (APRHistoryHandler (onlyService "m1" 7) sampleMarshal
        [("marketId", ["m1", "m2"])]).calls = ["m1"] ∧
      (APRHistoryHandler (onlyService "m1" 7) sampleMarshal
        [("marketId", ["m1", "m2"])]).w.status = some 200 ∧
      (APRHistoryHandler (onlyService "m1" 7) sampleMarshal
        [("marketId", ["m1", "m2"])]).w.body = "7\n" ∧
      (TotalUtilizationHistoryHandler (onlyService "m1" 7) sampleMarshal
        [("marketId", ["m1", "m2"])]).w.body = "7\n" ∧
      (TotalUtilizationHistoryHandler (onlyService "m2" 7) sampleMarshal
        [("marketId", ["m1", "m2"])]).w.status = some 500 ∧
      (TotalUtilizationHistoryHandler (onlyService "m2" 7) sampleMarshal
        [("marketId", ["m1", "m2"])]).w.body = "\x7b\"error\": \"unknown market\"\x7d" :=
  ⟨by decide, by decide, by decide,
   ((handlers_require_marketId (onlyService "m1" 7) (onlyService "m1" 7) sampleMarshal
      []).1 (by decide)).1,
   ((handlers_require_marketId (onlyService "m1" 7) (onlyService "m1" 7) sampleMarshal
      []).1 (by decide)).2.1,
   ((handlers_require_marketId (onlyService "m1" 7) (onlyService "m1" 7) sampleMarshal
      [("marketId", [""])]).1 (by decide)).2.2.1,
   ((handlers_require_marketId (onlyService "m1" 7) (onlyService "m1" 7) sampleMarshal
      [("marketId", ["m1", "m2"])]).2 (by decide)).1,
   (((handlers_require_marketId (onlyService "m1" 7) (onlyService "m1" 7) sampleMarshal
      [("marketId", ["m1", "m2"])]).2 (by decide)).2.2.2.1 7 "7" (by rfl) (by decide)).1,
   (((handlers_require_marketId (onlyService "m1" 7) (onlyService "m1" 7) sampleMarshal
      [("marketId", ["m1", "m2"])]).2 (by decide)).2.2.2.1 7 "7" (by rfl) (by decide)).2,
   (((handlers_require_marketId (onlyService "m1" 7) (onlyService "m1" 7) sampleMarshal
      [("marketId", ["m1", "m2"])]).2 (by decide)).2.2.2.2.2.1 7 "7" (by rfl)
      (by decide)).2,
   (((handlers_require_marketId (onlyService "m2" 7) (onlyService "m2" 7) sampleMarshal
      [("marketId", ["m1", "m2"])]).2 (by decide)).2.2.2.2.1 "unknown market"
      (by rfl)).1,
   (((handlers_require_marketId (onlyService "m2" 7) (onlyService "m2" 7) sampleMarshal
      [("marketId", ["m1", "m2"])]).2 (by decide)).2.2.2.2.1 "unknown market"
      (by rfl)).2⟩

/-- C15 does not hold of the code. `APRHistoryHandler` answers a missing `marketId` through
`http.Error`: status 400, content type `text/plain` and the plain-text body
`marketId is required` followed by a newline, not a JSON object; a service error is answered
the same way with status 500. `TotalUtilizationHistoryHandler` pastes the error text between
quotes without escaping it, so an error text holding a quote gives a body that is not JSON. -/
theorem handlers_error_bodies :
    (APRHistoryHandler lengthService sampleMarshal []).w.status = some 400 ∧
      (APRHistoryHandler lengthService sampleMarshal []).w.body = "marketId is required\n" ∧
      List.lookup "Content-Type" (APRHistoryHandler lengthService sampleMarshal []).w.header
        = some "text/plain; charset=utf-8" ∧
      (APRHistoryHandler (failingService "indexer down") sampleMarshal
          [("marketId", ["m1"])]).w.status = some 500 ∧
      (APRHistoryHandler (failingService "indexer down") sampleMarshal
          [("marketId", ["m1"])]).w.body = "indexer down\n" ∧
      (TotalUtilizationHistoryHandler lengthService sampleMarshal []).w.body
        = "\x7b\"error\": \"marketId is required\"\x7d" ∧
      (TotalUtilizationHistoryHandler (failingService "no market \"m1\"") sampleMarshal
          [("marketId", ["m1"])]).w.status = some 500 ∧
      (TotalUtilizationHistoryHandler (failingService "no market \"m1\"") sampleMarshal
          [("marketId", ["m1"])]).w.body
        = "\x7b\"error\": \"no market \"m1\"\"\x7d" := by
  decide

/-! ## The extractor: the shares flag and the inspected values -/

theorem attrMatch_eq_some_iff (rt : Runtime) (attr : Value) (k : String) (v : Float64) :
    attrMatch rt attr = some (k, v) ↔
      ∃ (attrMap : Record) (value : String), attr = .object attrMap ∧
        lookup attrMap "key" = .string k ∧ lookup attrMap "value" = .string value ∧
        isAmountKey k = true ∧ rt.ParseFloat value = some v ∧ v.neZero = true := by
  unfold attrMatch
  constructor
  · intro h
    cases attr <;> simp at h
    rename_i m
    cases hk : lookup m "key" <;> simp [hk] at h
    rename_i key
    cases hv : lookup m "value" <;> simp [hv] at h
    rename_i value
    by_cases hkey : isAmountKey key = true
    · simp only [hkey, if_true] at h
      cases hp : rt.ParseFloat value <;> simp [hp] at h
      rename_i val
      obtain ⟨hz, h1, h2⟩ := h
      subst h1
      subst h2
      exact ⟨m, value, rfl, hk, hv, hkey, hp, hz⟩
    · simp [hkey] at h
  · rintro ⟨m, value, rfl, hk, hv, hkey, hp, hz⟩
    simp [hk, hv, hkey, hp, hz]

theorem mem_eventAttrs_iff (ev attr : Value) :
    attr ∈ eventAttrs ev ↔
      ∃ (evMap : Record) (attrs : List Value), ev = .object evMap ∧
        lookup evMap "attrs" = .array attrs ∧ attr ∈ attrs := by
  unfold eventAttrs
  constructor
  · intro h
    cases ev <;> simp at h
    rename_i m
    cases ha : lookup m "attrs" <;> simp [ha] at h
    rename_i attrs
    exact ⟨m, attrs, rfl, ha, h⟩
  · rintro ⟨m, attrs, rfl, ha, h⟩
    simpa [ha] using h

theorem mem_matchesOf_iff (rt : Runtime) (evs : List Value) (k : String) (v : Float64) :
    (k, v) ∈ matchesOf rt evs ↔
      ∃ (evMap : Record) (attrs : List Value) (attrMap : Record) (value : String),
        .object evMap ∈ evs ∧ lookup evMap "attrs" = .array attrs ∧
        .object attrMap ∈ attrs ∧ lookup attrMap "key" = .string k ∧
        lookup attrMap "value" = .string value ∧ isAmountKey k = true ∧
        rt.ParseFloat value = some v ∧ v.neZero = true := by
  unfold matchesOf
  rw [List.mem_filterMap]
  constructor
  · rintro ⟨attr, hmem, hm⟩
    obtain ⟨ev, hev, hattr⟩ := List.mem_flatMap.mp hmem
    obtain ⟨evMap, attrs, rfl, ha, hin⟩ := (mem_eventAttrs_iff ev attr).mp hattr
    obtain ⟨attrMap, value, rfl, hk, hv, hkey, hp, hz⟩ := (attrMatch_eq_some_iff rt attr k v).mp hm
    exact ⟨evMap, attrs, attrMap, value, hev, ha, hin, hk, hv, hkey, hp, hz⟩
  · rintro ⟨evMap, attrs, attrMap, value, hev, ha, hin, hk, hv, hkey, hp, hz⟩
    refine ⟨.object attrMap, List.mem_flatMap.mpr ⟨.object evMap, hev, ?_⟩, ?_⟩
    · exact (mem_eventAttrs_iff _ _).mpr ⟨evMap, attrs, rfl, ha, hin⟩
    · exact (attrMatch_eq_some_iff rt _ k v).mpr ⟨attrMap, value, rfl, hk, hv, hkey, hp, hz⟩

/-- C16: on a well-formed record the flag is true if and only if some attribute of some event
has the key `shares` and a string value that parses to a non-zero number; later attributes
never clear it, and a `shares` attribute whose value is zero or does not parse does not set
it. -/
theorem parseMarketActivity_flag_iff_shares_attr (rt : Runtime) (tx response : Record)
    (evs : List Value) (wf : Malformed tx = false)
    (hr : lookup tx "response" = .object response)
    (he : lookup response "events" = .array evs) :
    (parseMarketActivity rt tx).IsAmountInShares = true ↔
      ∃ (evMap : Record) (attrs : List Value) (attrMap : Record) (value : String)
        (val : Float64),
        .object evMap ∈ evs ∧ lookup evMap "attrs" = .array attrs ∧
        .object attrMap ∈ attrs ∧ lookup attrMap "key" = .string "shares" ∧
        lookup attrMap "value" = .string value ∧
        rt.ParseFloat value = some val ∧ val.neZero = true := by
  obtain ⟨height, hash, caller, msgMap, valueMap, response2, rest, evs2,
    hb, hh, hm, hv, hc, hr2, he2, hg⟩ := shape_of_not_malformed tx wf
  rw [hr] at hr2
  cases hr2
  rw [he] at he2
  cases he2
  have hp := parseBody_of_shape rt tx height hash caller msgMap valueMap response rest evs
    hb hh hm hv hc hr he hg
  unfold parseMarketActivity
  rw [hp]
  simp only [Option.getD_some, List.any_eq_true]
  constructor
  · rintro ⟨⟨k, v⟩, hmem, hk⟩
    have hk2 : k = "shares" := by simpa using hk
    subst hk2
    obtain ⟨evMap, attrs, attrMap, value, h1, h2, h3, h4, h5, _, h7, h8⟩ :=
      (mem_matchesOf_iff rt evs _ v).mp hmem
    exact ⟨evMap, attrs, attrMap, value, v, h1, h2, h3, h4, h5, h7, h8⟩
  · rintro ⟨evMap, attrs, attrMap, value, val, h1, h2, h3, h4, h5, h7, h8⟩
    refine ⟨("shares", val), ?_, by simp⟩
    exact (mem_matchesOf_iff rt evs _ val).mpr
      ⟨evMap, attrs, attrMap, value, h1, h2, h3, h4, h5, by decide, h7, h8⟩

/-- The flag is set by the `shares` attribute with value "10" and not by one with value "0". -/
theorem parseMarketActivity_flag_iff_shares_attr_witness :
    Malformed txSharesThenAmount = false ∧
      (parseMarketActivity sampleRuntime txSharesThenAmount).IsAmountInShares = true ∧
      (parseMarketActivity sampleRuntime
        (txWithAttrs [mkAttr "shares" "0", mkAttr "amount" "3"])).IsAmountInShares = false :=
  ⟨by decide,
   (parseMarketActivity_flag_iff_shares_attr sampleRuntime txSharesThenAmount
      [("events", .array [mkEvent "Supply" [mkAttr "shares" "10", mkAttr "amount" "3"]])]
      [mkEvent "Supply" [mkAttr "shares" "10", mkAttr "amount" "3"]]
      (by decide) rfl rfl).mpr
      ⟨[("type", .string "Supply"),
         ("attrs", .array [mkAttr "shares" "10", mkAttr "amount" "3"])],
       [mkAttr "shares" "10", mkAttr "amount" "3"],
       [("key", .string "shares"), ("value", .string "10")], "10", .fin 10,
       List.Mem.head _, rfl, List.Mem.head _, rfl, rfl, by decide, by decide⟩,
   by decide⟩

theorem matchesOf_neZero (rt : Runtime) (evs : List Value) (m : String × Float64)
    (h : m ∈ matchesOf rt evs) : m.2.neZero = true := by
  obtain ⟨k, v⟩ := m
  obtain ⟨_, _, _, _, _, _, _, _, _, _, _, hz⟩ := (mem_matchesOf_iff rt evs k v).mp h
  exact hz

theorem parseMarketActivity_shares_neZero (rt : Runtime) (tx : Record)
    (h : (parseMarketActivity rt tx).IsAmountInShares = true) :
    (parseMarketActivity rt tx).Amount.neZero = true := by
  cases wf : Malformed tx
  · obtain ⟨height, hash, caller, msgMap, valueMap, response, rest, evs,
      hb, hh, hm, hv, hc, hr, he, hg⟩ := shape_of_not_malformed tx wf
    have hp := parseBody_of_shape rt tx height hash caller msgMap valueMap response rest evs
      hb hh hm hv hc hr he hg
    unfold parseMarketActivity at h ⊢
    rw [hp] at h ⊢
    simp only [Option.getD_some, List.any_eq_true] at h ⊢
    obtain ⟨m, hmem, _⟩ := h
    have hne : matchesOf rt evs ≠ [] := List.ne_nil_of_mem hmem
    rw [List.getLast?_eq_getLast _ hne]
    exact matchesOf_neZero rt evs _ (List.getLast_mem hne)
  · unfold parseMarketActivity at h
    rw [parseBody_of_malformed rt tx wf] at h
    cases h

/-- C17: for every input record, well-formed or not, the result of `parseMarketActivity` with
the flag set has an amount that is not 0; hence every entry returned by `GetMarketActivity`
with the flag set has a non-zero amount. -/
theorem shares_flag_implies_nonzero_amount (ε : Type) (rt : Runtime) :
    (∀ tx : Record, (parseMarketActivity rt tx).IsAmountInShares = true →
        (parseMarketActivity rt tx).Amount.neZero = true ∧
        (parseMarketActivity rt tx).Amount ≠ Float64.fin 0) ∧
      ∀ (env : Collaborators ε) (marketId : String) (out : List MarketActivity),
        (GetMarketActivity rt env marketId).ret = .ok out →
        ∀ a ∈ out, a.IsAmountInShares = true →
          a.Amount.neZero = true ∧ a.Amount ≠ Float64.fin 0 := by
  have key : ∀ tx : Record, (parseMarketActivity rt tx).IsAmountInShares = true →
      (parseMarketActivity rt tx).Amount.neZero = true ∧
      (parseMarketActivity rt tx).Amount ≠ Float64.fin 0 := by
    intro tx h
    have hz := parseMarketActivity_shares_neZero rt tx h
    refine ⟨hz, ?_⟩
    intro heq
    rw [heq] at hz
    simp [Float64.neZero] at hz
  refine ⟨key, ?_⟩
  intro env marketId out hret a ha hflag
  cases hx : env.Execute marketId with
  | error e =>
    unfold GetMarketActivity at hret
    rw [hx] at hret
    cases hret
  | ok resp =>
    rw [GetMarketActivity_of_execute_ok rt env marketId resp hx] at hret
    cases hf : env.FetchBlockTimestamps (heightsOf rt (env.Unmarshal resp)) with
    | error e =>
      rw [hf] at hret
      cases hret
    | ok tm =>
      rw [hf] at hret
      simp only [Except.ok.injEq] at hret
      subst hret
      obtain ⟨tx, _, rfl⟩ := List.mem_map.mp ha
      exact key tx hflag

/-- The record with `shares` = "10" then `amount` = "3" has the flag set and the amount 3,
alone and as an entry of the activity list. -/
theorem shares_flag_implies_nonzero_amount_witness :
    (parseMarketActivity sampleRuntime txSharesThenAmount).IsAmountInShares = true ∧
      (parseMarketActivity sampleRuntime txSharesThenAmount).Amount = .fin 3 ∧
      ((parseMarketActivity sampleRuntime txSharesThenAmount).Amount.neZero = true ∧
        (parseMarketActivity sampleRuntime txSharesThenAmount).Amount ≠ Float64.fin 0) ∧
      (GetMarketActivity sampleRuntime (staticEnv [txSharesThenAmount] []) "m1").ret
        = .ok [{ Typ := "Supply", Amount := .fin 3, Caller := "g1user", Hash := "0xa1",
                 Timestamp := "", IsAmountInShares := true }] ∧
      (Float64.fin 3).neZero = true ∧ Float64.fin 3 ≠ Float64.fin 0 :=
  ⟨by decide, by decide,
   (shares_flag_implies_nonzero_amount String sampleRuntime).1 txSharesThenAmount (by decide),
   rfl,
   (shares_flag_implies_nonzero_amount String sampleRuntime).2
     (staticEnv [txSharesThenAmount] []) "m1"
     [{ Typ := "Supply", Amount := .fin 3, Caller := "g1user", Hash := "0xa1",
        Timestamp := "", IsAmountInShares := true }] rfl
     { Typ := "Supply", Amount := .fin 3, Caller := "g1user", Hash := "0xa1",
       Timestamp := "", IsAmountInShares := true } (List.Mem.head _) rfl⟩

/-! ## The extractor: which values are inspected -/

theorem attrStep_other_key (rt : Runtime) (st : LoopState) (attrMap : Record) (k : String)
    (hk : lookup attrMap "key" = .string k) (hkey : isAmountKey k = false) :
    attrStep rt st (.object attrMap) = some st := by
  unfold attrStep
  simp [Value.asMap, hk, Value.asString, hkey]

theorem foldlM_attrStep_remove (rt : Runtime) (st : LoopState) (attrMap : Record) (k : String)
    (as1 as2 : List Value) (hk : lookup attrMap "key" = .string k)
    (hkey : isAmountKey k = false) :
    List.foldlM (attrStep rt) st (as1 ++ .object attrMap :: as2)
      = List.foldlM (attrStep rt) st (as1 ++ as2) := by
  rw [List.foldlM_append, List.foldlM_append]
  cases List.foldlM (attrStep rt) st as1 with
  | none => rfl
  | some st1 =>
    simp only [Option.bind_eq_bind, Option.some_bind]
    rw [List.foldlM_cons, attrStep_other_key rt st1 attrMap k hk hkey]
    rfl

theorem foldlM_eventStep_replace (rt : Runtime) (st : LoopState) (ev ev2 : Value)
    (pre post : List Value) (h : ∀ st1 : LoopState, eventStep rt st1 ev = eventStep rt st1 ev2) :
    List.foldlM (eventStep rt) st (pre ++ ev :: post)
      = List.foldlM (eventStep rt) st (pre ++ ev2 :: post) := by
  rw [List.foldlM_append, List.foldlM_append]
  cases List.foldlM (eventStep rt) st pre with
  | none => rfl
  | some st1 =>
    simp only [Option.bind_eq_bind, Option.some_bind]
    rw [List.foldlM_cons, List.foldlM_cons, h st1]

/-- C18: the `value` of an attribute is read only under the keys `amount`, `assets`, `shares`.
Let a record hold, in one of its events, an attribute with a string key and a `value` that is
absent or not a string, and let a second record be the same with that attribute removed. Under
any other key the attribute does not degrade the record: both records give the same result.
Under one of the three keys the whole record degrades to the all-defaults record. -/
theorem parseMarketActivity_value_read_for_amount_keys (rt : Runtime)
    (tx tx2 response response2 evMap evMap2 attrMap : Record)
    (pre post as1 as2 : List Value) (k : String)
    (h1 : lookup tx2 "block_height" = lookup tx "block_height")
    (h2 : lookup tx2 "hash" = lookup tx "hash")
    (h3 : lookup tx2 "messages" = lookup tx "messages")
    (hr : lookup tx "response" = .object response)
    (he : lookup response "events" = .array (pre ++ .object evMap :: post))
    (hr2 : lookup tx2 "response" = .object response2)
    (he2 : lookup response2 "events" = .array (pre ++ .object evMap2 :: post))
    (ht : lookup evMap2 "type" = lookup evMap "type")
    (ha : lookup evMap "attrs" = .array (as1 ++ .object attrMap :: as2))
    (ha2 : lookup evMap2 "attrs" = .array (as1 ++ as2))
    (hk : lookup attrMap "key" = .string k)
    (hv : ∀ s : String, lookup attrMap "value" ≠ .string s) :
    (isAmountKey k = false → parseMarketActivity rt tx = parseMarketActivity rt tx2) ∧
      (isAmountKey k = true → parseMarketActivity rt tx = RawTx.zero) := by
  constructor
  · intro hkey
    have hattrs := fun st => foldlM_attrStep_remove rt st attrMap k as1 as2 hk hkey
    have hev : ∀ st1 : LoopState,
        eventStep rt st1 (.object evMap) = eventStep rt st1 (.object evMap2) := by
      intro st1
      unfold eventStep
      simp only [Value.asMap, ht, ha, ha2, Value.asSlice, Option.bind_eq_bind, Option.some_bind,
        hattrs]
    have hloop := fun st => foldlM_eventStep_replace rt st _ _ pre post hev
    unfold parseMarketActivity parseBody
    simp only [h1, h2, h3, hr, he, hr2, he2, Value.asMap, Value.asSlice, Option.bind_eq_bind,
      Option.some_bind, hloop]
  · intro hkey
    have hbadAttr : badAttr (.object attrMap) = true := by
      unfold badAttr
      simp only [hk]
      cases hval : lookup attrMap "value" with
      | string s => exact absurd hval (hv s)
      | null => simpa using hkey
      | bool b => simpa using hkey
      | number x => simpa using hkey
      | array xs => simpa using hkey
      | object m => simpa using hkey
    have hany : (as1 ++ Value.object attrMap :: as2).any badAttr = true :=
      List.any_eq_true.mpr ⟨.object attrMap, by simp, hbadAttr⟩
    have hbadEvent : badEvent (.object evMap) = true := by
      unfold badEvent
      simp only [ha]
      cases lookup evMap "type" with
      | string t => exact hany
      | null => rfl
      | bool b => rfl
      | number x => rfl
      | array xs => rfl
      | object m => rfl
    have hbad : badResponse tx = true := by
      unfold badResponse
      simp only [hr, he]
      exact List.any_eq_true.mpr ⟨.object evMap, by simp, hbadEvent⟩
    unfold parseMarketActivity
    rw [parseBody_of_badResponse rt tx hbad]
    rfl

/-- A `memo` attribute with a numeric value changes nothing; the same value under `amount`
degrades the record. -/
theorem parseMarketActivity_value_read_for_amount_keys_witness :
    parseMarketActivity sampleRuntime (txWithAttrs [mkAttr "amount" "5", memoAttr])
        = parseMarketActivity sampleRuntime (txWithAttrs [mkAttr "amount" "5"]) ∧
      (parseMarketActivity sampleRuntime (txWithAttrs [mkAttr "amount" "5"])).Amount = .fin 5 ∧
      parseMarketActivity sampleRuntime (txWithAttrs [mkAttr "amount" "5", amountNumberAttr])
        = { Typ := "", Amount := .fin 0, Caller := "", Hash := "", BlockHeight := 0,
            IsAmountInShares := false } :=
  ⟨(parseMarketActivity_value_read_for_amount_keys sampleRuntime
      (txWithAttrs [mkAttr "amount" "5", memoAttr]) (txWithAttrs [mkAttr "amount" "5"])
      [("events", .array [mkEvent "Supply" [mkAttr "amount" "5", memoAttr]])]
      [("events", .array [mkEvent "Supply" [mkAttr "amount" "5"]])]
      [("type", .string "Supply"), ("attrs", .array [mkAttr "amount" "5", memoAttr])]
      [("type", .string "Supply"), ("attrs", .array [mkAttr "amount" "5"])]
      [("key", .string "memo"), ("value", .number (.fin 1))]
      [] [] [mkAttr "amount" "5"] [] "memo"
      rfl rfl rfl rfl rfl rfl rfl rfl rfl rfl rfl (fun _ h => by cases h)).1 (by decide),
   by decide,
   (parseMarketActivity_value_read_for_amount_keys sampleRuntime
      (txWithAttrs [mkAttr "amount" "5", amountNumberAttr]) (txWithAttrs [mkAttr "amount" "5"])
      [("events", .array [mkEvent "Supply" [mkAttr "amount" "5", amountNumberAttr]])]
      [("events", .array [mkEvent "Supply" [mkAttr "amount" "5"]])]
      [("type", .string "Supply"), ("attrs", .array [mkAttr "amount" "5", amountNumberAttr])]
      [("type", .string "Supply"), ("attrs", .array [mkAttr "amount" "5"])]
      [("key", .string "amount"), ("value", .number (.fin 1))]
      [] [] [mkAttr "amount" "5"] [] "amount"
      rfl rfl rfl rfl rfl rfl rfl rfl rfl rfl rfl (fun _ h => by cases h)).2 (by decide)⟩

end GnoLend
